import Mathlib

/-!
# social-content-dl: a shallow embedding of the Telegram downloader

The Go program authenticates against Telegram through an external client
library, resolves a channel name, requests its recent messages and streams
every document attachment to disk in 512 KiB chunks.

The embedding threads an explicit `World` (filesystem, issued requests, log)
through the functions of `internal/tgapp/telegram.go`.  Everything the
program only *consumes* (the answers of the Telegram API, the failures of the
operating system, `filepath.Join`) is a field of `Env`, so that every theorem
quantifies over all possible behaviours of these collaborators.

Go errors are represented by their text (`Option String`, `none` is `nil`).
Go's `int` and `int64` are mathematical integers, without wrap-around: the
only arithmetic on them is `downloadedCount++`, which counts messages, and
`offset += len(chunk)`, which counts the bytes received for one file, so that
neither leaves the 64-bit range before `2^63` messages or bytes.
-/

namespace SocialContentDL

/-! ## Data model of the consumed API (`github.com/gotd/td/tg`) -/

/-- Variants of `tg.UserClass`, with the fields the program reads. -/
inductive UserClass where
  | userEmpty (id : Int)
  | user (id : Int) (accessHash : Int)
  deriving DecidableEq

/-- Variants of `tg.ChatClass`, with the fields the program reads. -/
inductive ChatClass where
  | chatEmpty (id : Int)
  | chat (id : Int)
  | chatForbidden (id : Int)
  | channel (id : Int) (accessHash : Int)
  | channelForbidden (id : Int) (accessHash : Int)
  deriving DecidableEq

/-- Result of `ContactsResolveUsername` (`tg.ContactsResolvedPeer`). -/
structure ContactsResolvedPeer where
  Users : List UserClass
  Chats : List ChatClass
  deriving DecidableEq

/-- The two `tg.InputPeerClass` variants the program builds. -/
inductive InputPeerClass where
  | inputPeerUser (userID : Int) (accessHash : Int)
  | inputPeerChannel (channelID : Int) (accessHash : Int)
  deriving DecidableEq

/-- Variants of `tg.DocumentAttributeClass`; only the filename attribute
carries data the program reads. -/
inductive DocumentAttributeClass where
  | imageSize
  | animated
  | sticker
  | video
  | audio
  | filename (fileName : String)
  | hasStickers
  | customEmoji
  deriving DecidableEq

/-- Fields of `tg.Document` the program reads. -/
structure Document where
  ID : Int
  AccessHash : Int
  FileReference : List UInt8
  Size : Int
  Attributes : List DocumentAttributeClass
  deriving DecidableEq

/-- Variants of `tg.DocumentClass`. -/
inductive DocumentClass where
  | documentEmpty (id : Int)
  | document (doc : Document)
  deriving DecidableEq

/-- Variants of `tg.MessageMediaClass`: the document variant (whose
`Document` field may be nil) and the others, which the program treats alike. -/
inductive MessageMediaClass where
  | messageMediaEmpty
  | messageMediaPhoto
  | messageMediaGeo
  | messageMediaContact
  | messageMediaUnsupported
  | messageMediaDocument (document : Option DocumentClass)
  | messageMediaWebPage
  | messageMediaPoll
  deriving DecidableEq

/-- Variants of `tg.MessageClass`; `Media` of a regular message may be nil. -/
inductive MessageClass where
  | messageEmpty (id : Int)
  | message (id : Int) (media : Option MessageMediaClass)
  | messageService (id : Int)
  deriving DecidableEq

/-- Variants of `tg.MessagesMessagesClass`, the result of `MessagesGetHistory`. -/
inductive MessagesMessagesClass where
  | messagesMessages (messages : List MessageClass)
  | messagesMessagesSlice (messages : List MessageClass)
  | messagesChannelMessages (messages : List MessageClass)
  | messagesMessagesNotModified
  deriving DecidableEq

/-- The request `tg.MessagesGetHistoryRequest`. -/
structure MessagesGetHistoryRequest where
  Peer : InputPeerClass
  Limit : Int
  AddOffset : Int
  OffsetID : Int
  MaxID : Int
  MinID : Int
  Hash : Int
  deriving DecidableEq

/-- The location `tg.InputDocumentFileLocation`. -/
structure InputDocumentFileLocation where
  ID : Int
  AccessHash : Int
  FileReference : List UInt8
  ThumbSize : String
  deriving DecidableEq

/-- The request `tg.UploadGetFileRequest`. -/
structure UploadGetFileRequest where
  Precise : Bool
  CDNSupported : Bool
  Location : InputDocumentFileLocation
  Offset : Int
  Limit : Int
  deriving DecidableEq

/-- Outcome of one `UploadGetFile` call: a Go error, an `*tg.UploadFile`
holding bytes, or the other variant of `tg.UploadFileClass`. -/
inductive UploadGetFileResult where
  | error (msg : String)
  | uploadFile (bytes : List UInt8)
  | uploadFileCDNRedirect
  deriving DecidableEq

/-! ## Environment and world -/

/-- Everything the program consumes from its collaborators. -/
structure Env where
  /-- `td.config.DownloadPath`. -/
  downloadPath : String
  /-- `filepath.Join`. -/
  join : String → String → String
  /-- `os.Create`: the error text when creating the path fails. -/
  createErr : String → Option String
  /-- `(*os.File).Write`, by number of earlier writes: `none` when all bytes
  are written, else the number of bytes written and the error text. -/
  writeErr : Nat → Option (Nat × String)
  /-- `UploadGetFile`, by number of earlier calls and request. -/
  getFile : Nat → UploadGetFileRequest → UploadGetFileResult
  /-- `auth.Client.Status`: the error text, or whether the session is authorized. -/
  authStatus : Except String Bool
  /-- `auth.Client.IfNecessary`: the error text of the login flow, if any. -/
  authFlow : Option String
  /-- `ContactsResolveUsername`, by username. -/
  resolveUsername : String → Except String ContactsResolvedPeer
  /-- `MessagesGetHistory`, by request. -/
  getHistory : MessagesGetHistoryRequest → Except String MessagesMessagesClass

/-- The state the program changes: file contents by path, the requests sent
so far, the number of `Write` calls so far and the lines logged so far. -/
structure World where
  files : String → Option (List UInt8)
  fileRequests : List UploadGetFileRequest
  historyRequests : List MessagesGetHistoryRequest
  writes : Nat
  log : List String

/-- A `log.Printf` call: one more line. -/
def World.printf (w : World) (line : String) : World :=
  { w with log := w.log ++ [line] }

/-- Successful `os.Create`: the path now holds an empty file. -/
def World.create (w : World) (path : String) : World :=
  { w with files := fun p => if p = path then some [] else w.files p }

/-- Bytes appended to the file at a path by `Write`, which is counted. -/
def World.append (w : World) (path : String) (bytes : List UInt8) : World :=
  { w with
    files := fun p => if p = path then some ((w.files p).getD [] ++ bytes) else w.files p
    writes := w.writes + 1 }

/-- An `UploadGetFile` request is sent. -/
def World.sendFile (w : World) (req : UploadGetFileRequest) : World :=
  { w with fileRequests := w.fileRequests ++ [req] }

/-- A `MessagesGetHistory` request is sent. -/
def World.sendHistory (w : World) (req : MessagesGetHistoryRequest) : World :=
  { w with historyRequests := w.historyRequests ++ [req] }

/-! ## `formatFileSize`

`float64(size)` is the nearest integer with a 53-bit significand (ties to the
even significand); dividing it by `1024` or `1024*1024` is exact in binary
floating point; `%.1f` prints the exact quotient rounded to the nearest tenth
(ties to the even tenth).  All three steps are integer arithmetic. -/

/-- Value of `float64(n)` for a non-negative `n`. -/
def float64OfNat (n : Nat) : Nat :=
  if n < 9007199254740992 then n
  else
    let e := Nat.log2 n - 52
    let m := n / 2 ^ e
    let r := n % 2 ^ e
    let half := 2 ^ (e - 1)
    (if half < r ∨ (r = half ∧ m % 2 = 1) then m + 1 else m) * 2 ^ e

/-- The integer nearest to `a / b`, ties to the even one. -/
def roundHalfEven (a b : Nat) : Nat :=
  let q := a / b
  let r := a % b
  if b < 2 * r ∨ (2 * r = b ∧ q % 2 = 1) then q + 1 else q

/-- Decimal text of `t` tenths: the integer part, a point, one digit. -/
def tenthsText (t : Nat) : String :=
  toString (t / 10) ++ "." ++ toString (t % 10)

/-- Result of `fmt.Sprintf("%.1f", x)` for the non-negative float `x = num / den`. -/
def sprintfFloat1 (num den : Nat) : String :=
  tenthsText (roundHalfEven (10 * num) den)

/-- The function `formatFileSize` of telegram.go. -/
def formatFileSize (size : Int) : String :=
  if size < 1024 then
    toString size ++ " B"
  else if size < 1024 * 1024 then
    sprintfFloat1 (float64OfNat size.toNat) 1024 ++ " KB"
  else
    sprintfFloat1 (float64OfNat size.toNat) (1024 * 1024) ++ " MB"

/-! ## `downloadFile` -/

/-- The constant `chunkSize := int64(512 * 1024)` of `downloadFile`. -/
def chunkSize : Int := 512 * 1024

/-- The request built in each iteration of the loop of `downloadFile`. -/
def chunkRequest (file : InputDocumentFileLocation) (offset : Int) : UploadGetFileRequest :=
  { Precise := false, CDNSupported := false, Location := file, Offset := offset,
    Limit := chunkSize }

/-- The loop `for offset < fileSize` of `downloadFile`, from a given offset;
the result is the error returned from inside the loop, if any. -/
def downloadLoop (env : Env) (file : InputDocumentFileLocation) (filePath : String)
    (fileSize : Int) (offset : Int) (w : World) : World × Option String :=
  if _h : offset < fileSize then
    match env.getFile w.fileRequests.length (chunkRequest file offset) with
    | .error msg =>
      (w.sendFile (chunkRequest file offset), some ("failed to download chunk: " ++ msg))
    | .uploadFileCDNRedirect =>
      (w.sendFile (chunkRequest file offset), some "unexpected response type")
    | .uploadFile bytes =>
      match env.writeErr w.writes with
      | some (n, msg) =>
        ((w.sendFile (chunkRequest file offset)).append filePath (bytes.take n),
          some ("failed to write chunk: " ++ msg))
      | none =>
        if _hlen : (bytes.length : Int) < chunkSize then
          ((w.sendFile (chunkRequest file offset)).append filePath bytes, none)
        else
          downloadLoop env file filePath fileSize (offset + bytes.length)
            ((w.sendFile (chunkRequest file offset)).append filePath bytes)
  else (w, none)
termination_by (fileSize - offset).toNat
decreasing_by
  simp only [chunkSize] at _hlen
  omega

/-- The method `downloadFile` of telegram.go. -/
def downloadFile (env : Env) (w : World) (file : InputDocumentFileLocation)
    (fileName : String) (fileSize : Int) : World × Option String :=
  if (w.files (env.join env.downloadPath fileName)).isSome then
    (w.printf ("File already exists: " ++ fileName), none)
  else
    match env.createErr (env.join env.downloadPath fileName) with
    | some msg =>
      (w.printf ("Downloading: " ++ fileName ++ " (" ++ formatFileSize fileSize ++ ")"),
        some ("failed to create file: " ++ msg))
    | none =>
      match downloadLoop env file (env.join env.downloadPath fileName) fileSize 0
          ((w.printf ("Downloading: " ++ fileName ++ " (" ++ formatFileSize fileSize ++ ")")).create
            (env.join env.downloadPath fileName)) with
      | (w2, some err) => (w2, some err)
      | (w2, none) => (w2.printf ("Successfully downloaded: " ++ fileName), none)

/-! ## `processMessage` -/

/-- The loop over `doc.Attributes` in `processMessage`: the name of the first
filename attribute, the empty string when there is none. -/
def fileNameOfAttributes : List DocumentAttributeClass → String
  | [] => ""
  | .filename fileName :: _ => fileName
  | _ :: rest => fileNameOfAttributes rest

/-- The name `processMessage` passes to `downloadFile`. -/
def chooseFileName (attributes : List DocumentAttributeClass) (messageID : Int) : String :=
  if fileNameOfAttributes attributes = "" then "file_" ++ toString messageID
  else fileNameOfAttributes attributes

/-- The method `processMessage` of telegram.go. -/
def processMessage (env : Env) (w : World) (msg : MessageClass) : World × Option String :=
  match msg with
  | .message id media =>
    match media with
    | none => (w, none)
    | some (.messageMediaDocument document) =>
      match document with
      | none => (w, none)
      | some (.documentEmpty _) => (w, none)
      | some (.document doc) =>
        downloadFile env w
          { ID := doc.ID, AccessHash := doc.AccessHash, FileReference := doc.FileReference,
            ThumbSize := "" }
          (chooseFileName doc.Attributes id) doc.Size
    | some _ => (w, none)
  | _ => (w, none)

/-! ## `DownloadChannelMusic` -/

/-- The method `auth` of telegram.go: the status query, then the login flow.
The prompts and hints it prints on the terminal are not part of the world. -/
def auth (env : Env) : Option String :=
  match env.authStatus with
  | .error err => some ("failed to get auth status: " ++ err)
  | .ok _ => env.authFlow

/-- The block "Convert to input peer" of `DownloadChannelMusic`: two
successive `if` statements assigning the same variable, nil at first. -/
def inputPeerOf (peer : ContactsResolvedPeer) : Option InputPeerClass :=
  let inputPeer : Option InputPeerClass := none
  let inputPeer :=
    match peer.Users with
    | .user id accessHash :: _ => some (InputPeerClass.inputPeerUser id accessHash)
    | _ => inputPeer
  let inputPeer :=
    match peer.Chats with
    | .channel id accessHash :: _ => some (InputPeerClass.inputPeerChannel id accessHash)
    | _ => inputPeer
  inputPeer

/-- One iteration of `for _, msg := range m.Messages` up to, not including,
the limit test: the message is processed, an error is logged, a nil result
increments `downloadedCount`. -/
def messageStep (env : Env) (w : World) (downloadedCount : Int) (msg : MessageClass) :
    World × Int :=
  match processMessage env w msg with
  | (w1, some err) => (w1.printf ("Error processing message: " ++ err), downloadedCount)
  | (w1, none) => (w1, downloadedCount + 1)

/-- The loop `for _, msg := range m.Messages` of `DownloadChannelMusic` (the
same in both cases of the type switch); the result holds `downloadedCount`. -/
def messageLoop (env : Env) (limit : Int) : List MessageClass → World → Int → World × Int
  | [], w, downloadedCount => (w, downloadedCount)
  | msg :: rest, w, downloadedCount =>
    if limit > 0 ∧ (messageStep env w downloadedCount msg).2 ≥ limit then
      messageStep env w downloadedCount msg
    else
      messageLoop env limit rest (messageStep env w downloadedCount msg).1
        (messageStep env w downloadedCount msg).2

/-- The request `DownloadChannelMusic` sends to `MessagesGetHistory`. -/
def historyRequest (inputPeer : InputPeerClass) (limit : Int) : MessagesGetHistoryRequest :=
  { Peer := inputPeer, Limit := limit, AddOffset := 0, OffsetID := 0, MaxID := 0, MinID := 0,
    Hash := 0 }

/-- The type switch over the history response: the world and `downloadedCount`
after it. -/
def processHistory (env : Env) (limit : Int) (w : World) : MessagesMessagesClass → World × Int
  | .messagesMessages messages => messageLoop env limit messages w 0
  | .messagesChannelMessages messages => messageLoop env limit messages w 0
  | _ => (w, 0)

/-- The method `DownloadChannelMusic` of telegram.go.  The library method
`td.client.Run` is taken to reach its callback: it returns nil when the
callback does, and the callback's error wrapped as `callback: ...` otherwise;
a failure of the connection itself, before or after the callback, is not
part of the embedding. -/
def DownloadChannelMusic (env : Env) (w : World) (channelUsername : String) (limit : Int) :
    World × Option String :=
  match auth env with
  | some err =>
    (w.printf ("Starting download from channel: @" ++ channelUsername),
      some ("callback: " ++ "auth failed: " ++ err))
  | none =>
    match env.resolveUsername channelUsername with
    | .error err =>
      (w.printf ("Starting download from channel: @" ++ channelUsername),
        some ("callback: " ++ "failed to resolve channel: " ++ err))
    | .ok peer =>
      match inputPeerOf peer with
      | none =>
        (w.printf ("Starting download from channel: @" ++ channelUsername),
          some ("callback: " ++ "failed to get input peer"))
      | some inputPeer =>
        match env.getHistory (historyRequest inputPeer limit) with
        | .error err =>
          ((w.printf ("Starting download from channel: @" ++ channelUsername)).sendHistory
              (historyRequest inputPeer limit),
            some ("callback: " ++ "failed to get messages: " ++ err))
        | .ok messages =>
          ((processHistory env limit
              ((w.printf ("Starting download from channel: @" ++ channelUsername)).sendHistory
                (historyRequest inputPeer limit)) messages).1.printf
            ("Downloaded " ++
              toString (processHistory env limit
                ((w.printf ("Starting download from channel: @" ++ channelUsername)).sendHistory
                  (historyRequest inputPeer limit)) messages).2 ++ " audio files"),
            none)

/-! ## `LoadConfig` (config.go) -/

/-- The struct `Config` of package tgapp. -/
structure Config where
  AppID : Int
  AppHash : String
  PhoneNumber : String
  DownloadPath : String
  deriving DecidableEq

/-- The struct `Config` of package main, which wraps the one of tgapp. -/
structure MainConfig where
  Telegram : Config
  deriving DecidableEq

/-- The error `*strconv.NumError` of a failed `strconv.Atoi`: the input and
the reason (`ErrSyntax` or `ErrRange`). -/
inductive NumError where
  | errSyntax (num : String)
  | errRange (num : String)
  deriving DecidableEq

/-- The digit loop of `strconv.Atoi` and `strconv.ParseUint`: the value of a
run of decimal digits read left to right, `n = n*10 + (ch - 48)`; a syntax
error at a character that is not a digit, a range error once the value
leaves the unsigned 64-bit integers. -/
def parseDigits (s : String) : List Char → Nat → Except NumError Nat
  | [], n => .ok n
  | ch :: rest, n =>
    if 48 ≤ ch.toNat ∧ ch.toNat ≤ 57 then
      if n * 10 + (ch.toNat - 48) < 18446744073709551616 then
        parseDigits s rest (n * 10 + (ch.toNat - 48))
      else .error (.errRange s)
    else .error (.errSyntax s)

/-- The library function `strconv.Atoi` for a 64-bit `int`: an optional sign,
then one or more decimal digits; a syntax error otherwise, a range error
outside the 64-bit signed integers. -/
def atoi (s : String) : Except NumError Int :=
  match s.toList with
  | [] => .error (.errSyntax s)
  | ch :: rest =>
    if (if ch = '-' ∨ ch = '+' then rest else ch :: rest) = [] then .error (.errSyntax s)
    else
      match parseDigits s (if ch = '-' ∨ ch = '+' then rest else ch :: rest) 0 with
      | .error err => .error err
      | .ok n =>
        if ch = '-' then
          if n ≤ 9223372036854775808 then .ok (-(n : Int)) else .error (.errRange s)
        else
          if n ≤ 9223372036854775807 then .ok (n : Int) else .error (.errRange s)

/-- The function `getEnv` of config.go; `environ` is `os.Getenv`, which gives
the empty string for an unset variable. -/
def getEnv (environ : String → String) (key defaultValue : String) : String :=
  if environ key ≠ "" then environ key else defaultValue

/-- The function `LoadConfig` of config.go. -/
def LoadConfig (environ : String → String) : Except NumError MainConfig :=
  let phoneNumber := getEnv environ "TELEGRAM_PHONE" ""
  let phoneNumber := if phoneNumber = "" then getEnv environ "PHONE_NUMBER" "" else phoneNumber
  match atoi (getEnv environ "TELEGRAM_APP_ID" "17349") with
  | .error err => .error err
  | .ok appID =>
    .ok
      { Telegram :=
          { AppID := appID
            AppHash := getEnv environ "TELEGRAM_APP_HASH" "344583e45741c457fe1862106095a5eb"
            PhoneNumber := phoneNumber
            DownloadPath := getEnv environ "DOWNLOAD_PATH" "./downloads" } }

/-! ## Sample collaborators -/

/-- An environment in which nothing fails: the session is authorized, the
name resolves to nothing, the history is empty, every chunk request is
answered by three bytes. -/
def Env.sample : Env :=
  { downloadPath := "dl"
    join := fun dir name => dir ++ "/" ++ name
    createErr := fun _ => none
    writeErr := fun _ => none
    getFile := fun _ _ => .uploadFile [1, 2, 3]
    authStatus := .ok true
    authFlow := none
    resolveUsername := fun _ => .ok { Users := [], Chats := [] }
    getHistory := fun _ => .ok (.messagesMessages []) }

/-- The sample environment with a given answer to the name resolution. -/
def Env.withPeer (peer : ContactsResolvedPeer) : Env :=
  { Env.sample with resolveUsername := fun _ => .ok peer }

/-- The sample environment in which the name resolves to a channel whose
history is the given response. -/
def Env.withHistory (messages : MessagesMessagesClass) : Env :=
  { Env.sample with
    resolveUsername := fun _ => .ok { Users := [], Chats := [.channel 2 22] }
    getHistory := fun _ => .ok messages }

/-- A world with no file, no request sent and nothing logged. -/
def World.start : World :=
  { files := fun _ => none, fileRequests := [], historyRequests := [], writes := 0, log := [] }

/-- A message carrying a document with one filename attribute. -/
def sampleDocument (id : Int) (name : String) (size : Int) : MessageClass :=
  .message id (some (.messageMediaDocument (some (.document
    { ID := id, AccessHash := 7, FileReference := [], Size := size,
      Attributes := [.audio, .filename name] }))))

/-- A message carrying a photo. -/
def samplePhoto (id : Int) : MessageClass :=
  .message id (some .messageMediaPhoto)

/-- A response that names both a user and a channel. -/
def userAndChannel : ContactsResolvedPeer :=
  { Users := [.user 1 11], Chats := [.channel 2 22] }

/-! ## The file name, in the words of the specification -/

/-- Whether an attribute is the filename attribute. -/
def isFilename : DocumentAttributeClass → Bool
  | .filename _ => true
  | _ => false

/-- The name the specification describes: the name held by the first
filename attribute when there is one and its name is not empty, else
`file_` followed by the message id in decimal. -/
def specFileName (attributes : List DocumentAttributeClass) (messageID : Int) : String :=
  match attributes.find? isFilename with
  | some (.filename fileName) =>
    if fileName = "" then "file_" ++ toString messageID else fileName
  | _ => "file_" ++ toString messageID

/-! ## Numeric values, in the words of the specification -/

/-- Whether a value is numeric: an optional sign followed by one or more
decimal digits. -/
def isNumeral (s : String) : Bool :=
  match s.toList with
  | [] => false
  | ch :: rest =>
    (if ch = '-' ∨ ch = '+' then rest else ch :: rest) ≠ [] ∧
      ∀ c ∈ (if ch = '-' ∨ ch = '+' then rest else ch :: rest), 48 ≤ c.toNat ∧ c.toNat ≤ 57

/-- An environment in which only `TELEGRAM_APP_ID` is set, to a given value. -/
def environWithAppID (value : String) : String → String :=
  fun key => if key = "TELEGRAM_APP_ID" then value else ""

/-! ## Positions in the message loop -/

/-- The world and `downloadedCount` at the head of the message loop once the
messages `done` have been processed, `none` when the limit test has ended the
loop before. -/
def loopHead (env : Env) (limit : Int) : List MessageClass → World → Int → Option (World × Int)
  | [], w, downloadedCount => some (w, downloadedCount)
  | msg :: done, w, downloadedCount =>
    if limit > 0 ∧ (messageStep env w downloadedCount msg).2 ≥ limit then none
    else
      loopHead env limit done (messageStep env w downloadedCount msg).1
        (messageStep env w downloadedCount msg).2

/-- A history of three messages: two documents with file names and a photo. -/
def threeMessages : MessagesMessagesClass :=
  .messagesChannelMessages
    [sampleDocument 1 "a.mp3" 3, samplePhoto 2, sampleDocument 3 "b.mp3" 3]

/-- The sample environment in which no file can be created. -/
def Env.readOnly : Env :=
  { Env.sample with createErr := fun _ => some "permission denied" }

/-! ## Counting and collecting chunks -/

/-- The quotient `a / b` rounded up, for a positive `b`. -/
def ceilDiv (a b : Int) : Int := (a + b - 1) / b

/-- The bytes an `UploadGetFile` reply holds. -/
def replyBytes : UploadGetFileResult → List UInt8
  | .uploadFile bytes => bytes
  | _ => []

/-- The chunks returned to a list of requests sent one after the other, the
first of them after `sent` earlier requests. -/
def returnedChunks (env : Env) : Nat → List UploadGetFileRequest → List (List UInt8)
  | _, [] => []
  | sent, req :: rest => replyBytes (env.getFile sent req) :: returnedChunks env (sent + 1) rest

/-- Offsets that advance by the length of each chunk: one per chunk, the
first is the given one. -/
def offsetsFrom : Int → List (List UInt8) → List Int
  | _, [] => []
  | offset, chunk :: rest => offset :: offsetsFrom (offset + chunk.length) rest

/-- The sample environment in which every chunk has the full 524288 bytes. -/
def Env.fullChunks : Env :=
  { Env.sample with getFile := fun _ _ => .uploadFile (List.replicate 524288 0) }

/-- The environment of full chunks in which every write fails at once. -/
def Env.diskFull : Env :=
  { Env.fullChunks with writeErr := fun _ => some (0, "no space left on device") }

/-- The sample environment in which the first chunk request is answered by
a full chunk of 524288 bytes and every later one by three bytes. -/
def Env.twoChunks : Env :=
  { Env.sample with
    getFile := fun sent _ =>
      if sent = 0 then .uploadFile (List.replicate 524288 0) else .uploadFile [1, 2, 3] }

/-- The location of a sample document. -/
def sampleLocation : InputDocumentFileLocation :=
  { ID := 1, AccessHash := 7, FileReference := [], ThumbSize := "" }

/-! ## The loop of `downloadFile`, case by case -/

/-- The loop ends without a request once the offset has reached the size. -/
theorem downloadLoop_done (env : Env) (file : InputDocumentFileLocation) (filePath : String)
    (fileSize offset : Int) (w : World) (h : ¬ offset < fileSize) :
    downloadLoop env file filePath fileSize offset w = (w, none) := by
  rw [downloadLoop]; simp [h]

/-- A failed chunk request ends the loop with its error. -/
theorem downloadLoop_error (env : Env) (file : InputDocumentFileLocation) (filePath : String)
    (fileSize offset : Int) (w : World) (msg : String) (h : offset < fileSize)
    (hr : env.getFile w.fileRequests.length (chunkRequest file offset) = .error msg) :
    downloadLoop env file filePath fileSize offset w =
      (w.sendFile (chunkRequest file offset), some ("failed to download chunk: " ++ msg)) := by
  rw [downloadLoop]; simp [h, hr]

/-- A reply of the other response type ends the loop with an error. -/
theorem downloadLoop_redirect (env : Env) (file : InputDocumentFileLocation) (filePath : String)
    (fileSize offset : Int) (w : World) (h : offset < fileSize)
    (hr : env.getFile w.fileRequests.length (chunkRequest file offset) =
      .uploadFileCDNRedirect) :
    downloadLoop env file filePath fileSize offset w =
      (w.sendFile (chunkRequest file offset), some "unexpected response type") := by
  rw [downloadLoop]; simp [h, hr]

/-- A failed write ends the loop with its error. -/
theorem downloadLoop_writeFail (env : Env) (file : InputDocumentFileLocation)
    (filePath : String) (fileSize offset : Int) (w : World) (bytes : List UInt8) (n : Nat)
    (msg : String) (h : offset < fileSize)
    (hr : env.getFile w.fileRequests.length (chunkRequest file offset) = .uploadFile bytes)
    (hw : env.writeErr w.writes = some (n, msg)) :
    downloadLoop env file filePath fileSize offset w =
      ((w.sendFile (chunkRequest file offset)).append filePath (bytes.take n),
        some ("failed to write chunk: " ++ msg)) := by
  rw [downloadLoop]; simp [h, hr, hw]

/-- A written chunk shorter than the stride ends the loop. -/
theorem downloadLoop_short (env : Env) (file : InputDocumentFileLocation) (filePath : String)
    (fileSize offset : Int) (w : World) (bytes : List UInt8) (h : offset < fileSize)
    (hr : env.getFile w.fileRequests.length (chunkRequest file offset) = .uploadFile bytes)
    (hw : env.writeErr w.writes = none) (hlen : (bytes.length : Int) < chunkSize) :
    downloadLoop env file filePath fileSize offset w =
      ((w.sendFile (chunkRequest file offset)).append filePath bytes, none) := by
  rw [downloadLoop]; simp [h, hr, hw, hlen]

/-- A written chunk of full length moves the loop to the next offset. -/
theorem downloadLoop_next (env : Env) (file : InputDocumentFileLocation) (filePath : String)
    (fileSize offset : Int) (w : World) (bytes : List UInt8) (h : offset < fileSize)
    (hr : env.getFile w.fileRequests.length (chunkRequest file offset) = .uploadFile bytes)
    (hw : env.writeErr w.writes = none) (hlen : ¬ (bytes.length : Int) < chunkSize) :
    downloadLoop env file filePath fileSize offset w =
      downloadLoop env file filePath fileSize (offset + bytes.length)
        ((w.sendFile (chunkRequest file offset)).append filePath bytes) := by
  rw [downloadLoop]; simp [h, hr, hw, hlen]

/-- When the file is absent and can be created, `downloadFile` sends the requests, leaves the files and returns the error of its loop, run on the created file. -/
theorem downloadFile_of_created (env : Env) (w : World) (file : InputDocumentFileLocation)
    (fileName : String) (fileSize : Int)
    (habsent : w.files (env.join env.downloadPath fileName) = none)
    (hcreate : env.createErr (env.join env.downloadPath fileName) = none) :
    (downloadFile env w file fileName fileSize).1.fileRequests =
        (downloadLoop env file (env.join env.downloadPath fileName) fileSize 0
          ((w.printf ("Downloading: " ++ fileName ++ " (" ++ formatFileSize fileSize ++
            ")")).create (env.join env.downloadPath fileName))).1.fileRequests ∧
      (downloadFile env w file fileName fileSize).1.files =
        (downloadLoop env file (env.join env.downloadPath fileName) fileSize 0
          ((w.printf ("Downloading: " ++ fileName ++ " (" ++ formatFileSize fileSize ++
            ")")).create (env.join env.downloadPath fileName))).1.files ∧
      (downloadFile env w file fileName fileSize).2 =
        (downloadLoop env file (env.join env.downloadPath fileName) fileSize 0
          ((w.printf ("Downloading: " ++ fileName ++ " (" ++ formatFileSize fileSize ++
            ")")).create (env.join env.downloadPath fileName))).2 := by
  unfold downloadFile
  simp only [habsent, hcreate, Option.isSome_none, Bool.false_eq_true, if_false]
  split
  · next w2 err heq => rw [heq]; exact ⟨rfl, rfl, rfl⟩
  · next w2 heq => rw [heq]; exact ⟨rfl, rfl, rfl⟩

/-! ## What the download never touches -/

theorem downloadLoop_historyRequests (env : Env) (file : InputDocumentFileLocation)
    (filePath : String) (fileSize offset : Int) (w : World) :
    (downloadLoop env file filePath fileSize offset w).1.historyRequests =
      w.historyRequests := by
  induction offset, w using downloadLoop.induct env file filePath fileSize with
  | case1 offset w h msg hr => rw [downloadLoop_error _ _ _ _ _ _ _ h hr]; rfl
  | case2 offset w h hr => rw [downloadLoop_redirect _ _ _ _ _ _ h hr]; rfl
  | case3 offset w h bytes hr n msg hw =>
    rw [downloadLoop_writeFail _ _ _ _ _ _ _ _ _ h hr hw]; rfl
  | case4 offset w h bytes hr hw hlen => rw [downloadLoop_short _ _ _ _ _ _ _ h hr hw hlen]; rfl
  | case5 offset w h bytes hr hw hlen ih => rw [downloadLoop_next _ _ _ _ _ _ _ h hr hw hlen, ih]; rfl
  | case6 offset w h => rw [downloadLoop_done _ _ _ _ _ _ h]

theorem downloadFile_historyRequests (env : Env) (w : World) (file : InputDocumentFileLocation)
    (fileName : String) (fileSize : Int) :
    (downloadFile env w file fileName fileSize).1.historyRequests = w.historyRequests := by
  unfold downloadFile
  split
  · rfl
  · split
    · rfl
    · split
      · next w2 err heq =>
        have := downloadLoop_historyRequests env file (env.join env.downloadPath fileName)
          fileSize 0 ((w.printf ("Downloading: " ++ fileName ++ " (" ++
            formatFileSize fileSize ++ ")")).create (env.join env.downloadPath fileName))
        rw [heq] at this; exact this
      · next w2 heq =>
        have := downloadLoop_historyRequests env file (env.join env.downloadPath fileName)
          fileSize 0 ((w.printf ("Downloading: " ++ fileName ++ " (" ++
            formatFileSize fileSize ++ ")")).create (env.join env.downloadPath fileName))
        rw [heq] at this; exact this

theorem processMessage_historyRequests (env : Env) (w : World) (msg : MessageClass) :
    (processMessage env w msg).1.historyRequests = w.historyRequests := by
  unfold processMessage
  split
  · split
    · rfl
    · split
      · rfl
      · rfl
      · exact downloadFile_historyRequests _ _ _ _ _
    · rfl
  · rfl

theorem messageStep_historyRequests (env : Env) (w : World) (count : Int) (msg : MessageClass) :
    (messageStep env w count msg).1.historyRequests = w.historyRequests := by
  have h := processMessage_historyRequests env w msg
  unfold messageStep
  split
  · next w1 err heq => rw [heq] at h; exact h
  · next w1 heq => rw [heq] at h; exact h

theorem messageLoop_historyRequests (env : Env) (limit : Int) (messages : List MessageClass) :
    ∀ (w : World) (count : Int),
      (messageLoop env limit messages w count).1.historyRequests = w.historyRequests := by
  induction messages with
  | nil => intro w count; rfl
  | cons msg rest ih =>
    intro w count
    rw [messageLoop]
    split
    · exact messageStep_historyRequests env w count msg
    · rw [ih]; exact messageStep_historyRequests env w count msg

theorem processHistory_historyRequests (env : Env) (limit : Int) (w : World)
    (messages : MessagesMessagesClass) :
    (processHistory env limit w messages).1.historyRequests = w.historyRequests := by
  cases messages <;> simp [processHistory, messageLoop_historyRequests]

/-! ## C1: peer selection -/

/-- C1, as the code has it: when the resolved users start with a User and the
resolved chats start with a Channel, the history request is sent for the
channel peer built from that channel's id and access hash. -/
theorem DownloadChannelMusic_peer_is_channel (env : Env) (w : World) (channelUsername : String)
    (limit userID userHash channelID channelHash : Int) (users : List UserClass)
    (chats : List ChatClass) (hauth : auth env = none)
    (hresolve : env.resolveUsername channelUsername =
      .ok { Users := .user userID userHash :: users,
            Chats := .channel channelID channelHash :: chats }) :
    (DownloadChannelMusic env w channelUsername limit).1.historyRequests =
      w.historyRequests ++ [historyRequest (.inputPeerChannel channelID channelHash) limit] := by
  unfold DownloadChannelMusic
  simp only [hauth, hresolve, inputPeerOf]
  split
  · rfl
  · simp only [World.printf, processHistory_historyRequests]
    rfl

/-- The theorem above at a response naming user 1 and channel 2. -/
theorem DownloadChannelMusic_peer_is_channel_witness :
    (DownloadChannelMusic (Env.withPeer userAndChannel) World.start "music" 5).1.historyRequests =
      World.start.historyRequests ++ [historyRequest (.inputPeerChannel 2 22) 5] :=
  DownloadChannelMusic_peer_is_channel (Env.withPeer userAndChannel) World.start "music" 5
    1 11 2 22 [] [] rfl rfl

/-- C1 fails as stated: for a response naming user 1 and channel 2, the only
history request is sent for the channel peer, none for the user peer. -/
theorem DownloadChannelMusic_peer_not_user :
    (DownloadChannelMusic (Env.withPeer userAndChannel) World.start "music" 5).1.historyRequests.map
        (fun req => req.Peer) = [InputPeerClass.inputPeerChannel 2 22] ∧
      InputPeerClass.inputPeerUser 1 11 ∉
        (DownloadChannelMusic (Env.withPeer userAndChannel) World.start "music"
          5).1.historyRequests.map (fun req => req.Peer) := by
  decide


/-! ## C5: a file that exists is skipped -/

/-- C5: when a file already exists at the joined path, `downloadFile` returns
nil, sends no chunk request and leaves every file as it was (no write either),
whatever the declared size is. -/
theorem downloadFile_skips_existing (env : Env) (w : World) (file : InputDocumentFileLocation)
    (fileName : String) (fileSize : Int) (content : List UInt8)
    (hexists : w.files (env.join env.downloadPath fileName) = some content) :
    (downloadFile env w file fileName fileSize).2 = none ∧
      (downloadFile env w file fileName fileSize).1.fileRequests = w.fileRequests ∧
      (downloadFile env w file fileName fileSize).1.files = w.files ∧
      (downloadFile env w file fileName fileSize).1.writes = w.writes := by
  have hskip : downloadFile env w file fileName fileSize =
      (w.printf ("File already exists: " ++ fileName), none) := by
    unfold downloadFile
    rw [hexists]
    rfl
  rw [hskip]
  exact ⟨rfl, rfl, rfl, rfl⟩

/-- The theorem above at an existing empty file `dl/a.mp3` and declared size 99. -/
theorem downloadFile_skips_existing_witness :
    (downloadFile Env.sample (World.start.create "dl/a.mp3")
        { ID := 1, AccessHash := 7, FileReference := [], ThumbSize := "" } "a.mp3" 99).2 = none ∧
      (downloadFile Env.sample (World.start.create "dl/a.mp3")
        { ID := 1, AccessHash := 7, FileReference := [], ThumbSize := "" } "a.mp3"
          99).1.fileRequests = (World.start.create "dl/a.mp3").fileRequests ∧
      (downloadFile Env.sample (World.start.create "dl/a.mp3")
        { ID := 1, AccessHash := 7, FileReference := [], ThumbSize := "" } "a.mp3"
          99).1.files = (World.start.create "dl/a.mp3").files ∧
      (downloadFile Env.sample (World.start.create "dl/a.mp3")
        { ID := 1, AccessHash := 7, FileReference := [], ThumbSize := "" } "a.mp3"
          99).1.writes = (World.start.create "dl/a.mp3").writes :=
  downloadFile_skips_existing Env.sample (World.start.create "dl/a.mp3")
    { ID := 1, AccessHash := 7, FileReference := [], ThumbSize := "" } "a.mp3" 99 []
    (by decide)

/-! ## C6: the media filter -/

/-- C6: a message that is not a regular message whose media is the document
variant holding a concrete document (a non-message envelope, no media,
another media variant such as a photo, a nil or empty document) makes
`processMessage` return nil and leave the world as it was: no file, no
request; such a document message is handed to `downloadFile`. -/
theorem processMessage_media_filter (env : Env) (w : World) :
    (∀ msg : MessageClass,
      (∀ (id : Int) (doc : Document),
        msg ≠ .message id (some (.messageMediaDocument (some (.document doc))))) →
      processMessage env w msg = (w, none)) ∧
    (∀ id : Int, processMessage env w (.messageEmpty id) = (w, none)) ∧
    (∀ id : Int, processMessage env w (.messageService id) = (w, none)) ∧
    (∀ id : Int, processMessage env w (.message id none) = (w, none)) ∧
    (∀ id : Int, processMessage env w (.message id (some .messageMediaPhoto)) = (w, none)) ∧
    (∀ id : Int,
      processMessage env w (.message id (some (.messageMediaDocument none))) = (w, none)) ∧
    (∀ id docID : Int,
      processMessage env w
        (.message id (some (.messageMediaDocument (some (.documentEmpty docID))))) =
          (w, none)) ∧
    (∀ (id : Int) (doc : Document),
      processMessage env w (.message id (some (.messageMediaDocument (some (.document doc))))) =
        downloadFile env w
          { ID := doc.ID, AccessHash := doc.AccessHash, FileReference := doc.FileReference,
            ThumbSize := "" }
          (chooseFileName doc.Attributes id) doc.Size) := by
  refine ⟨?_, fun _ => rfl, fun _ => rfl, fun _ => rfl, fun _ => rfl, fun _ => rfl,
    fun _ _ => rfl, fun _ _ => rfl⟩
  intro msg hmsg
  unfold processMessage
  split
  · split
    · rfl
    · split
      · rfl
      · rfl
      · next id _ _ doc => exact absurd rfl (hmsg id doc)
    · rfl
  · rfl

/-- The theorem above at a photo message. -/
theorem processMessage_media_filter_witness :
    processMessage Env.sample World.start (samplePhoto 4) = (World.start, none) :=
  (processMessage_media_filter Env.sample World.start).1 (samplePhoto 4)
    (fun _ _ h => MessageClass.noConfusion h (fun _ hmedia =>
      Option.noConfusion hmedia (fun hphoto => MessageMediaClass.noConfusion hphoto)))

/-! ## C7: the file name -/

theorem digitChar_toNat (k : Nat) (hk : k < 10) : (Nat.digitChar k).toNat = k + 48 := by
  interval_cases k <;> rfl

theorem digitChar_ne_minus (k : Nat) (hk : k < 10) : Nat.digitChar k ≠ '-' := by
  interval_cases k <;> decide

theorem toDigitsCore_value (fuel : Nat) : ∀ (n : Nat) (ds : List Char), n < fuel →
    (Nat.toDigitsCore 10 fuel n ds).foldl (fun acc c => acc * 10 + (c.toNat - 48)) 0 =
      ds.foldl (fun acc c => acc * 10 + (c.toNat - 48)) n := by
  induction fuel with
  | zero => intro n ds h; omega
  | succ fuel ih =>
    intro n ds h
    have hd : (Nat.digitChar (n % 10)).toNat - 48 = n % 10 := by
      rw [digitChar_toNat _ (Nat.mod_lt _ (by decide))]; omega
    simp only [Nat.toDigitsCore]
    split
    · next h0 =>
      simp only [List.foldl_cons, hd]
      congr 1; omega
    · next h0 =>
      rw [ih (n / 10) _ (by omega)]
      simp only [List.foldl_cons, hd]
      congr 1; omega

theorem toDigitsCore_no_minus (fuel : Nat) : ∀ (n : Nat) (ds : List Char), '-' ∉ ds →
    '-' ∉ Nat.toDigitsCore 10 fuel n ds := by
  induction fuel with
  | zero => intro n ds h; simpa [Nat.toDigitsCore] using h
  | succ fuel ih =>
    intro n ds h
    have hd : '-' ≠ Nat.digitChar (n % 10) :=
      fun e => digitChar_ne_minus _ (Nat.mod_lt _ (by decide)) e.symm
    simp only [Nat.toDigitsCore]
    split
    · simp [hd, h]
    · exact ih _ _ (by simp [hd, h])

/-- Decimal rendering of natural numbers is injective. -/
theorem Nat_repr_injective (a b : Nat) (h : Nat.repr a = Nat.repr b) : a = b := by
  have h1 : Nat.toDigits 10 a = Nat.toDigits 10 b := congrArg String.data h
  have ha := toDigitsCore_value (a + 1) a [] (by omega)
  have hb := toDigitsCore_value (b + 1) b [] (by omega)
  simp only [Nat.toDigits] at h1
  rw [h1, hb] at ha
  simpa using ha.symm

/-- Decimal rendering of integers is injective. -/
theorem Int_toString_injective (a b : Int) (h : toString a = toString b) : a = b := by
  have hminus : ∀ m n : Nat, Nat.repr m ≠ "-" ++ Nat.repr n := by
    intro m n e
    have e1 := congrArg String.data e
    have hm := toDigitsCore_no_minus (m + 1) m [] (by simp)
    simp only [Nat.repr, List.asString, String.data_append, Nat.toDigits] at e1
    rw [e1] at hm
    simp at hm
  cases a with
  | ofNat m =>
    cases b with
    | ofNat n =>
      have : Nat.repr m = Nat.repr n := h
      rw [Nat_repr_injective m n this]
    | negSucc n => exact absurd h (hminus m (n + 1))
  | negSucc m =>
    cases b with
    | ofNat n => exact absurd h.symm (hminus n (m + 1))
    | negSucc n =>
      have e : "-" ++ Nat.repr (m + 1) = "-" ++ Nat.repr (n + 1) := h
      have e1 := congrArg String.data e
      simp only [String.data_append, List.append_cancel_left_eq] at e1
      have e2 : Nat.repr (m + 1) = Nat.repr (n + 1) := String.ext e1
      have := Nat_repr_injective _ _ e2
      have : m = n := by omega
      rw [this]

/-- The attribute loop returns the name of the first filename attribute. -/
theorem fileNameOfAttributes_find (attributes : List DocumentAttributeClass) :
    fileNameOfAttributes attributes =
      match attributes.find? isFilename with
      | some (.filename fileName) => fileName
      | _ => "" := by
  induction attributes with
  | nil => rfl
  | cons attr rest ih => cases attr <;> simp [fileNameOfAttributes, List.find?, isFilename, ih]

/-- The name chosen by the code is the name the specification describes. -/
theorem chooseFileName_eq_spec (attributes : List DocumentAttributeClass) (messageID : Int) :
    chooseFileName attributes messageID = specFileName attributes messageID := by
  unfold chooseFileName specFileName
  rw [fileNameOfAttributes_find]
  cases hfind : attributes.find? isFilename with
  | none => simp
  | some attr =>
    cases attr <;> simp

/-- C7: for every document message the name handed to `downloadFile` is the
name of the first filename attribute when there is one and it is not empty,
and otherwise `file_` followed by the decimal message id; the synthesized
name is injective in the message id. -/
theorem processMessage_file_name :
    (∀ (env : Env) (w : World) (id : Int) (doc : Document),
      processMessage env w (.message id (some (.messageMediaDocument (some (.document doc))))) =
        downloadFile env w
          { ID := doc.ID, AccessHash := doc.AccessHash, FileReference := doc.FileReference,
            ThumbSize := "" }
          (specFileName doc.Attributes id) doc.Size) ∧
    (∀ (attributes : List DocumentAttributeClass) (id : Int),
      attributes.find? isFilename = none →
        chooseFileName attributes id = "file_" ++ toString id) ∧
    (∀ a b : Int, "file_" ++ toString a = "file_" ++ toString b → a = b) := by
  refine ⟨?_, ?_, ?_⟩
  · intro env w id doc
    rw [← chooseFileName_eq_spec]
    rfl
  · intro attributes id h
    rw [chooseFileName_eq_spec, specFileName, h]
  · intro a b h
    have e1 := congrArg String.data h
    simp only [String.data_append, List.append_cancel_left_eq] at e1
    exact Int_toString_injective a b (String.ext e1)


/-- The theorem above at a document without filename attribute, message 42. -/
theorem processMessage_file_name_witness :
    chooseFileName [.audio, .video] 42 = "file_" ++ toString (42 : Int) :=
  processMessage_file_name.2.1 [.audio, .video] 42 rfl

/-! ## C9: the app id of `LoadConfig` -/

theorem parseDigits_ok_digits (s : String) (digits : List Char) :
    ∀ n m : Nat, parseDigits s digits n = .ok m → ∀ c ∈ digits, 48 ≤ c.toNat ∧ c.toNat ≤ 57 := by
  induction digits with
  | nil => intro n m _ c hc; simp at hc
  | cons ch rest ih =>
    intro n m h c hc
    rw [parseDigits] at h
    split at h
    · next hdigit =>
      split at h
      · rcases List.mem_cons.1 hc with rfl | hc
        · exact hdigit
        · exact ih _ _ h c hc
      · cases h
    · cases h

/-- What a successful `atoi` has read. -/
theorem atoi_ok_cases (s : String) (n : Int) (h : atoi s = .ok n) :
    ∃ (ch : Char) (rest : List Char) (m : Nat), s.toList = ch :: rest ∧
      (if ch = '-' ∨ ch = '+' then rest else ch :: rest) ≠ [] ∧
      parseDigits s (if ch = '-' ∨ ch = '+' then rest else ch :: rest) 0 = .ok m ∧
      ((ch = '-' ∧ m ≤ 9223372036854775808 ∧ n = -(m : Int)) ∨
        (ch ≠ '-' ∧ m ≤ 9223372036854775807 ∧ n = (m : Int))) := by
  unfold atoi at h
  cases hs : s.toList with
  | nil => rw [hs] at h; cases h
  | cons ch rest =>
    rw [hs] at h
    simp only at h
    by_cases hne : (if ch = '-' ∨ ch = '+' then rest else ch :: rest) = []
    · rw [if_pos hne] at h; cases h
    · rw [if_neg hne] at h
      cases hp : parseDigits s (if ch = '-' ∨ ch = '+' then rest else ch :: rest) 0 with
      | error err => rw [hp] at h; cases h
      | ok m =>
        rw [hp] at h
        simp only at h
        refine ⟨ch, rest, m, rfl, hne, hp, ?_⟩
        by_cases hminus : ch = '-'
        · rw [if_pos hminus] at h
          by_cases hr : m ≤ 9223372036854775808
          · rw [if_pos hr] at h
            cases h
            exact Or.inl ⟨hminus, hr, rfl⟩
          · rw [if_neg hr] at h; cases h
        · rw [if_neg hminus] at h
          by_cases hr : m ≤ 9223372036854775807
          · rw [if_pos hr] at h
            cases h
            exact Or.inr ⟨hminus, hr, rfl⟩
          · rw [if_neg hr] at h; cases h

/-- Only numerals are read without error. -/
theorem atoi_ok_isNumeral (s : String) (n : Int) (h : atoi s = .ok n) : isNumeral s = true := by
  obtain ⟨ch, rest, m, hs, hne, hparse, _⟩ := atoi_ok_cases s n h
  unfold isNumeral
  rw [hs]
  simp only [decide_eq_true_eq]
  exact ⟨hne, parseDigits_ok_digits s _ 0 m hparse⟩

/-- The integer read is a 64-bit signed integer. -/
theorem atoi_ok_range (s : String) (n : Int) (h : atoi s = .ok n) :
    -9223372036854775808 ≤ n ∧ n ≤ 9223372036854775807 := by
  obtain ⟨ch, rest, m, _, _, _, hcase⟩ := atoi_ok_cases s n h
  omega

/-- C9, as the code has it: the AppID of a config `LoadConfig` returns is the
64-bit signed integer `strconv.Atoi` reads from `TELEGRAM_APP_ID` (from
`17349` when the variable is unset or empty), of either sign; it is 17349
when the variable is unset or empty; and `LoadConfig` returns an error when
the variable is set to a value that is not numeric. -/
theorem LoadConfig_appID (environ : String → String) :
    (∀ cfg : MainConfig, LoadConfig environ = .ok cfg →
      atoi (getEnv environ "TELEGRAM_APP_ID" "17349") = .ok cfg.Telegram.AppID ∧
        -9223372036854775808 ≤ cfg.Telegram.AppID ∧ cfg.Telegram.AppID ≤ 9223372036854775807) ∧
    (environ "TELEGRAM_APP_ID" = "" →
      ∃ cfg : MainConfig, LoadConfig environ = .ok cfg ∧ cfg.Telegram.AppID = 17349) ∧
    (environ "TELEGRAM_APP_ID" ≠ "" → isNumeral (environ "TELEGRAM_APP_ID") = false →
      ∃ err : NumError, LoadConfig environ = .error err) := by
  refine ⟨?_, ?_, ?_⟩
  · intro cfg h
    unfold LoadConfig at h
    split at h
    · cases h
    · next appID happ =>
      cases h
      exact ⟨happ, atoi_ok_range _ _ happ⟩
  · intro hempty
    have hget : getEnv environ "TELEGRAM_APP_ID" "17349" = "17349" := by
      simp [getEnv, hempty]
    have hatoi : atoi "17349" = .ok 17349 := by rfl
    unfold LoadConfig
    rw [hget, hatoi]
    exact ⟨_, rfl, rfl⟩
  · intro hset hnum
    have hget : getEnv environ "TELEGRAM_APP_ID" "17349" = environ "TELEGRAM_APP_ID" := by
      simp [getEnv, hset]
    unfold LoadConfig
    rw [hget]
    cases hatoi : atoi (environ "TELEGRAM_APP_ID") with
    | error err => exact ⟨err, rfl⟩
    | ok n => rw [atoi_ok_isNumeral _ _ hatoi] at hnum; cases hnum

/-- The theorem above at an unset variable, at the value `12a` and at the value `42`. -/
theorem LoadConfig_appID_witness :
    (∃ cfg : MainConfig, LoadConfig (environWithAppID "") = .ok cfg ∧
      cfg.Telegram.AppID = 17349) ∧
    (∃ err : NumError, LoadConfig (environWithAppID "12a") = .error err) ∧
    (atoi (getEnv (environWithAppID "42") "TELEGRAM_APP_ID" "17349") = .ok 42 ∧
      (-9223372036854775808 : Int) ≤ 42 ∧ (42 : Int) ≤ 9223372036854775807) :=
  ⟨(LoadConfig_appID (environWithAppID "")).2.1 (by decide),
    (LoadConfig_appID (environWithAppID "12a")).2.2 (by decide) (by decide),
    (LoadConfig_appID (environWithAppID "42")).1
      { Telegram :=
          { AppID := 42, AppHash := "344583e45741c457fe1862106095a5eb", PhoneNumber := "",
            DownloadPath := "./downloads" } } rfl⟩

/-- C9 fails as stated: with `TELEGRAM_APP_ID` set to `-5`, `LoadConfig`
returns a config, without error, whose AppID is -5 and so is not positive. -/
theorem LoadConfig_appID_not_positive :
    ∃ cfg : MainConfig, LoadConfig (environWithAppID "-5") = .ok cfg ∧
      cfg.Telegram.AppID = -5 ∧ ¬ 0 < cfg.Telegram.AppID :=
  ⟨{ Telegram :=
      { AppID := -5, AppHash := "344583e45741c457fe1862106095a5eb", PhoneNumber := "",
        DownloadPath := "./downloads" } }, rfl, rfl, by decide⟩


/-! ## C2: what the message loop counts -/

theorem downloadLoop_ok (env : Env) (file : InputDocumentFileLocation) (filePath : String)
    (fileSize : Int) (hwrite : ∀ k, env.writeErr k = none)
    (hfetch : ∀ k req, ∃ bytes, env.getFile k req = .uploadFile bytes) (offset : Int)
    (w : World) : (downloadLoop env file filePath fileSize offset w).2 = none := by
  induction offset, w using downloadLoop.induct env file filePath fileSize with
  | case1 offset w h msg hr =>
    obtain ⟨bytes, hb⟩ := hfetch w.fileRequests.length (chunkRequest file offset)
    rw [hb] at hr; cases hr
  | case2 offset w h hr =>
    obtain ⟨bytes, hb⟩ := hfetch w.fileRequests.length (chunkRequest file offset)
    rw [hb] at hr; cases hr
  | case3 offset w h bytes hr n msg hw => rw [hwrite] at hw; cases hw
  | case4 offset w h bytes hr hw hlen => rw [downloadLoop_short _ _ _ _ _ _ _ h hr hw hlen]
  | case5 offset w h bytes hr hw hlen ih => rw [downloadLoop_next _ _ _ _ _ _ _ h hr hw hlen, ih]
  | case6 offset w h => rw [downloadLoop_done _ _ _ _ _ _ h]

theorem downloadFile_ok (env : Env) (hcreate : ∀ path, env.createErr path = none)
    (hwrite : ∀ k, env.writeErr k = none)
    (hfetch : ∀ k req, ∃ bytes, env.getFile k req = .uploadFile bytes) (w : World)
    (file : InputDocumentFileLocation) (fileName : String) (fileSize : Int) :
    (downloadFile env w file fileName fileSize).2 = none := by
  unfold downloadFile
  split
  · rfl
  · rw [hcreate]
    simp only
    split
    · next w2 err heq =>
      have := downloadLoop_ok env file (env.join env.downloadPath fileName) fileSize hwrite
        hfetch 0 ((w.printf ("Downloading: " ++ fileName ++ " (" ++
          formatFileSize fileSize ++ ")")).create (env.join env.downloadPath fileName))
      rw [heq] at this; cases this
    · rfl

theorem processMessage_ok (env : Env) (hcreate : ∀ path, env.createErr path = none)
    (hwrite : ∀ k, env.writeErr k = none)
    (hfetch : ∀ k req, ∃ bytes, env.getFile k req = .uploadFile bytes) (w : World)
    (msg : MessageClass) : (processMessage env w msg).2 = none := by
  unfold processMessage
  split
  · split
    · rfl
    · split
      · rfl
      · rfl
      · exact downloadFile_ok env hcreate hwrite hfetch _ _ _ _
    · rfl
  · rfl

theorem messageStep_count_ok (env : Env) (w : World) (count : Int) (msg : MessageClass)
    (h : (processMessage env w msg).2 = none) : (messageStep env w count msg).2 = count + 1 := by
  unfold messageStep
  split
  · next w1 err heq => rw [heq] at h; cases h
  · rfl

/-- When no message fails and the limit is not reached, every message is counted. -/
theorem messageLoop_counts_all (env : Env) (limit : Int)
    (hok : ∀ w msg, (processMessage env w msg).2 = none) (messages : List MessageClass) :
    ∀ (w : World) (count : Int), limit ≤ 0 ∨ count + messages.length ≤ limit →
      (messageLoop env limit messages w count).2 = count + messages.length := by
  induction messages with
  | nil => intro w count _; simp [messageLoop]
  | cons msg rest ih =>
    intro w count hlimit
    have hstep := messageStep_count_ok env w count msg (hok w msg)
    rw [messageLoop]
    simp only [List.length_cons, Nat.cast_add, Nat.cast_one] at hlimit ⊢
    split
    · next hbreak =>
      rw [hstep] at hbreak ⊢
      omega
    · rw [ih _ _ (by rw [hstep]; omega), hstep]
      omega

theorem messageStep_of_ok (env : Env) (w : World) (count : Int) (msg : MessageClass)
    (h : (processMessage env w msg).2 = none) :
    messageStep env w count msg = ((processMessage env w msg).1, count + 1) := by
  unfold messageStep
  split
  · next w1 err heq => rw [heq] at h; cases h
  · next w1 heq => rw [heq]

/-- A download answered by one short chunk sends one request and writes that chunk. -/
theorem downloadFile_one_chunk (env : Env) (w : World) (file : InputDocumentFileLocation)
    (fileName : String) (bytes : List UInt8) (fileSize : Int)
    (habsent : w.files (env.join env.downloadPath fileName) = none)
    (hcreate : env.createErr (env.join env.downloadPath fileName) = none)
    (hwrite : env.writeErr w.writes = none)
    (hfetch : env.getFile w.fileRequests.length (chunkRequest file 0) = .uploadFile bytes)
    (hsize : 0 < fileSize) (hshort : (bytes.length : Int) < chunkSize) :
    (downloadFile env w file fileName fileSize).1.fileRequests =
        w.fileRequests ++ [chunkRequest file 0] ∧
      (downloadFile env w file fileName fileSize).1.files =
        (fun p => if p = env.join env.downloadPath fileName then some bytes else w.files p) := by
  obtain ⟨hreq, hfiles, _⟩ := downloadFile_of_created env w file fileName fileSize habsent hcreate
  have hloop := downloadLoop_short env file (env.join env.downloadPath fileName) fileSize 0
    ((w.printf ("Downloading: " ++ fileName ++ " (" ++ formatFileSize fileSize ++
      ")")).create (env.join env.downloadPath fileName)) bytes hsize hfetch hwrite hshort
  refine ⟨by rw [hreq, hloop]; rfl, ?_⟩
  rw [hfiles, hloop]
  funext p
  by_cases hp : p = env.join env.downloadPath fileName <;>
    simp [World.append, World.sendFile, World.create, World.printf, hp]

/-- The run of the message loop over the three sample messages from a world without files: two requests, two files, a count of 3. -/
theorem threeMessages_run (w : World) (hempty : w.files = fun _ => none) :
    ∃ w3 : World, processHistory (Env.withHistory threeMessages) 10 w threeMessages = (w3, 3) ∧
      w3.fileRequests.length = w.fileRequests.length + 2 ∧
      w3.files "dl/a.mp3" = some [1, 2, 3] ∧ w3.files "dl/b.mp3" = some [1, 2, 3] ∧
      ∀ p, p ≠ "dl/a.mp3" → p ≠ "dl/b.mp3" → w3.files p = none := by
  have hok : ∀ w msg, (processMessage (Env.withHistory threeMessages) w msg).2 = none :=
    processMessage_ok _ (fun _ => rfl) (fun _ => rfl) (fun _ _ => ⟨[1, 2, 3], rfl⟩)
  have ha : (Env.withHistory threeMessages).join (Env.withHistory threeMessages).downloadPath
      "a.mp3" = "dl/a.mp3" := by decide
  have hb : (Env.withHistory threeMessages).join (Env.withHistory threeMessages).downloadPath
      "b.mp3" = "dl/b.mp3" := by decide
  obtain ⟨hreq1, hfiles1⟩ := downloadFile_one_chunk (Env.withHistory threeMessages) w
    { ID := 1, AccessHash := 7, FileReference := [], ThumbSize := "" } "a.mp3" [1, 2, 3] 3
    (by rw [hempty]) rfl rfl rfl (by decide) (by decide)
  have hp1 : processMessage (Env.withHistory threeMessages) w (sampleDocument 1 "a.mp3" 3) =
      downloadFile (Env.withHistory threeMessages) w
        { ID := 1, AccessHash := 7, FileReference := [], ThumbSize := "" } "a.mp3" 3 := rfl
  obtain ⟨hreq3, hfiles3⟩ := downloadFile_one_chunk (Env.withHistory threeMessages)
    (processMessage (Env.withHistory threeMessages) w (sampleDocument 1 "a.mp3" 3)).1
    { ID := 3, AccessHash := 7, FileReference := [], ThumbSize := "" } "b.mp3" [1, 2, 3] 3
    (by rw [hp1, hfiles1, hempty]; decide) rfl rfl rfl (by decide) (by decide)
  have hp3 : ∀ w1, processMessage (Env.withHistory threeMessages) w1 (sampleDocument 3 "b.mp3" 3) =
      downloadFile (Env.withHistory threeMessages) w1
        { ID := 3, AccessHash := 7, FileReference := [], ThumbSize := "" } "b.mp3" 3 :=
    fun _ => rfl
  refine ⟨(processMessage (Env.withHistory threeMessages)
    (processMessage (Env.withHistory threeMessages) w (sampleDocument 1 "a.mp3" 3)).1
    (sampleDocument 3 "b.mp3" 3)).1, ?_, ?_, ?_, ?_, ?_⟩
  · have hloop : ∀ (env : Env) (a b c : MessageClass),
        (∀ w msg, (processMessage env w msg).2 = none) →
        messageLoop env 10 [a, b, c] w 0 =
          ((processMessage env (processMessage env (processMessage env w a).1 b).1 c).1, 3) := by
      intro env a b c hok
      simp only [messageLoop, messageStep_of_ok _ _ _ _ (hok _ _)]
      norm_num
    exact hloop _ _ _ _ hok
  · rw [hp3, hreq3, hp1, hreq1]; simp
  · rw [hp3, hfiles3, hp1, hfiles1, ha, hb]
    simp only [if_neg (by decide : ¬ "dl/a.mp3" = "dl/b.mp3"), if_true]
  · rw [hp3, hfiles3, hb]
    simp only [if_true]
  · intro p hpa hpb
    rw [hp3, hfiles3, hp1, hfiles1, hempty, ha, hb]
    simp only [if_neg hpa, if_neg hpb]

/-- C2, the code at the failing input: for a history of two documents with
file names and one photo, limit 10, an empty download directory and
collaborators that never fail, the photo is skipped (nil result, world
unchanged) and exactly two files are requested and written, yet
`downloadedCount` ends at 3: the last line logged is
"Downloaded 3 audio files". -/
theorem DownloadChannelMusic_counts_skipped :
    (∀ w : World, processMessage (Env.withHistory threeMessages) w (samplePhoto 2) = (w, none)) ∧
      (DownloadChannelMusic (Env.withHistory threeMessages) World.start "music" 10).2 = none ∧
      (DownloadChannelMusic (Env.withHistory threeMessages) World.start "music"
        10).1.fileRequests.length = 2 ∧
      (DownloadChannelMusic (Env.withHistory threeMessages) World.start "music" 10).1.files
        "dl/a.mp3" = some [1, 2, 3] ∧
      (DownloadChannelMusic (Env.withHistory threeMessages) World.start "music" 10).1.files
        "dl/b.mp3" = some [1, 2, 3] ∧
      (∀ p, p ≠ "dl/a.mp3" → p ≠ "dl/b.mp3" →
        (DownloadChannelMusic (Env.withHistory threeMessages) World.start "music" 10).1.files p =
          none) ∧
      (DownloadChannelMusic (Env.withHistory threeMessages) World.start "music" 10).1.log.getLast? =
        some "Downloaded 3 audio files" := by
  have hrun : (DownloadChannelMusic (Env.withHistory threeMessages) World.start "music" 10).1 =
      (processHistory (Env.withHistory threeMessages) 10
        ((World.start.printf ("Starting download from channel: @" ++ "music")).sendHistory
          (historyRequest (.inputPeerChannel 2 22) 10)) threeMessages).1.printf
        ("Downloaded " ++ toString (processHistory (Env.withHistory threeMessages) 10
          ((World.start.printf ("Starting download from channel: @" ++ "music")).sendHistory
            (historyRequest (.inputPeerChannel 2 22) 10)) threeMessages).2 ++
          " audio files") := rfl
  obtain ⟨w3, hw3, hcount, hfileA, hfileB, hother⟩ := threeMessages_run
    ((World.start.printf ("Starting download from channel: @" ++ "music")).sendHistory
      (historyRequest (.inputPeerChannel 2 22) 10)) rfl
  rw [hrun, hw3]
  refine ⟨fun _ => rfl, rfl, hcount, hfileA, hfileB, hother, ?_⟩
  simp only [World.printf, List.getLast?_append, List.getLast?_singleton]
  rfl

/-! ## C8: a failed message does not end the run -/

/-- The loop over a list continues from the loop head reached after an initial part. -/
theorem messageLoop_append (env : Env) (limit : Int) (done rest : List MessageClass) :
    ∀ (w0 : World) (count0 : Int) (w : World) (count : Int),
      loopHead env limit done w0 count0 = some (w, count) →
        messageLoop env limit (done ++ rest) w0 count0 = messageLoop env limit rest w count := by
  induction done with
  | nil =>
    intro w0 count0 w count h
    simp only [loopHead, Option.some.injEq, Prod.mk.injEq] at h
    obtain ⟨rfl, rfl⟩ := h
    rfl
  | cons msg done ih =>
    intro w0 count0 w count h
    rw [loopHead] at h
    rw [List.cons_append, messageLoop]
    split at h
    · cases h
    · next hcont => rw [if_neg hcont]; exact ih _ _ _ _ h

/-- At every loop head the limit test is false. -/
theorem loopHead_below_limit (env : Env) (limit : Int) (done : List MessageClass) :
    ∀ (w0 : World) (count0 : Int) (w : World) (count : Int),
      ¬ (limit > 0 ∧ count0 ≥ limit) → loopHead env limit done w0 count0 = some (w, count) →
        ¬ (limit > 0 ∧ count ≥ limit) := by
  induction done with
  | nil =>
    intro w0 count0 w count h0 h
    simp only [loopHead, Option.some.injEq, Prod.mk.injEq] at h
    obtain ⟨_, rfl⟩ := h
    exact h0
  | cons msg done ih =>
    intro w0 count0 w count _ h
    rw [loopHead] at h
    split at h
    · cases h
    · next hcont => exact ih _ _ _ _ hcont h

/-- C8: when the loop reaches a message (after the messages before it) and
`processMessage` fails on it, `downloadedCount` keeps its value and the loop
continues with the messages after it, in order; and `DownloadChannelMusic`
returns nil whenever auth, resolve and the history request have succeeded,
whatever happens to the single messages. -/
theorem failed_message_does_not_abort (env : Env) (limit : Int) :
    (∀ (w0 : World) (before after : List MessageClass) (msg : MessageClass) (w w1 : World)
      (count : Int) (err : String),
      loopHead env limit before w0 0 = some (w, count) →
      processMessage env w msg = (w1, some err) →
        messageStep env w count msg = (w1.printf ("Error processing message: " ++ err), count) ∧
        messageLoop env limit (before ++ msg :: after) w0 0 =
          messageLoop env limit after (w1.printf ("Error processing message: " ++ err)) count) ∧
    (∀ (w0 : World) (channelUsername : String) (peer : ContactsResolvedPeer)
      (inputPeer : InputPeerClass) (messages : MessagesMessagesClass),
      auth env = none → env.resolveUsername channelUsername = .ok peer →
      inputPeerOf peer = some inputPeer →
      env.getHistory (historyRequest inputPeer limit) = .ok messages →
        (DownloadChannelMusic env w0 channelUsername limit).2 = none) := by
  constructor
  · intro w0 before after msg w w1 count err hhead hfail
    have hstep : messageStep env w count msg =
        (w1.printf ("Error processing message: " ++ err), count) := by
      simp [messageStep, hfail]
    refine ⟨hstep, ?_⟩
    rw [messageLoop_append env limit before (msg :: after) w0 0 w count hhead, messageLoop]
    have hbelow := loopHead_below_limit env limit before w0 0 w count (by omega) hhead
    rw [hstep]
    rw [if_neg hbelow]
  · intro w0 channelUsername peer inputPeer messages hauth hresolve hpeer hhistory
    simp [DownloadChannelMusic, hauth, hresolve, hpeer, hhistory]

/-- The theorem above at a download directory in which no file can be created. -/
theorem failed_message_does_not_abort_witness :
    (messageStep Env.readOnly World.start 0 (sampleDocument 1 "a.mp3" 3) =
        ((processMessage Env.readOnly World.start (sampleDocument 1 "a.mp3" 3)).1.printf
          ("Error processing message: " ++ "failed to create file: permission denied"), 0) ∧
      messageLoop Env.readOnly 10 ([] ++ sampleDocument 1 "a.mp3" 3 :: [samplePhoto 2])
          World.start 0 =
        messageLoop Env.readOnly 10 [samplePhoto 2]
          ((processMessage Env.readOnly World.start (sampleDocument 1 "a.mp3" 3)).1.printf
            ("Error processing message: " ++ "failed to create file: permission denied")) 0) ∧
    (DownloadChannelMusic (Env.withHistory threeMessages) World.start "music" 10).2 = none :=
  ⟨(failed_message_does_not_abort Env.readOnly 10).1 World.start [] [samplePhoto 2]
      (sampleDocument 1 "a.mp3" 3) World.start
      (processMessage Env.readOnly World.start (sampleDocument 1 "a.mp3" 3)).1 0
      "failed to create file: permission denied" rfl (Prod.ext rfl (by decide)),
    (failed_message_does_not_abort (Env.withHistory threeMessages) 10).2 World.start "music"
      { Users := [], Chats := [.channel 2 22] } (.inputPeerChannel 2 22) threeMessages rfl rfl rfl
      rfl⟩


/-! ## C3: the number of chunk requests -/

/-- The loop sends at most `n` requests when `n` strides cover the bytes left. -/
theorem downloadLoop_fetch_le (env : Env) (file : InputDocumentFileLocation) (filePath : String)
    (fileSize offset : Int) (w : World) :
    ∀ n : Int, 0 ≤ n → fileSize - offset ≤ n * chunkSize →
      ((downloadLoop env file filePath fileSize offset w).1.fileRequests.length : Int) ≤
        w.fileRequests.length + n := by
  induction offset, w using downloadLoop.induct env file filePath fileSize with
  | case1 offset w h msg hr =>
    intro n hn hle
    rw [downloadLoop_error _ _ _ _ _ _ _ h hr]
    simp only [World.sendFile, List.length_append, List.length_singleton, Nat.cast_add,
      Nat.cast_one, chunkSize] at hle ⊢
    omega
  | case2 offset w h hr =>
    intro n hn hle
    rw [downloadLoop_redirect _ _ _ _ _ _ h hr]
    simp only [World.sendFile, List.length_append, List.length_singleton, Nat.cast_add,
      Nat.cast_one, chunkSize] at hle ⊢
    omega
  | case3 offset w h bytes hr k msg hw =>
    intro n hn hle
    rw [downloadLoop_writeFail _ _ _ _ _ _ _ _ _ h hr hw]
    simp only [World.sendFile, World.append, List.length_append, List.length_singleton,
      Nat.cast_add, Nat.cast_one, chunkSize] at hle ⊢
    omega
  | case4 offset w h bytes hr hw hlen =>
    intro n hn hle
    rw [downloadLoop_short _ _ _ _ _ _ _ h hr hw hlen]
    simp only [World.sendFile, World.append, List.length_append, List.length_singleton,
      Nat.cast_add, Nat.cast_one, chunkSize] at hle ⊢
    omega
  | case5 offset w h bytes hr hw hlen ih =>
    intro n hn hle
    rw [downloadLoop_next _ _ _ _ _ _ _ h hr hw hlen]
    simp only [chunkSize] at hle hlen
    have := ih (n - 1) (by omega) (by simp only [chunkSize]; omega)
    simp only [World.sendFile, World.append, List.length_append, List.length_singleton,
      Nat.cast_add, Nat.cast_one] at this ⊢
    omega
  | case6 offset w h =>
    intro n hn _
    rw [downloadLoop_done _ _ _ _ _ _ h]
    simp only
    omega

/-- The loop sends exactly `n` requests when the next `n` replies are full chunks, the next `n` writes succeed and `n` is the least number of strides covering the bytes left. -/
theorem downloadLoop_fetch_full (env : Env) (file : InputDocumentFileLocation)
    (filePath : String) (fileSize : Int) :
    ∀ (n : Nat) (offset : Int) (w : World),
      (∀ k : Nat, k < n → env.writeErr (w.writes + k) = none) →
      (∀ (k : Nat) (req : UploadGetFileRequest), k < n →
        ∃ bytes, env.getFile (w.fileRequests.length + k) req = .uploadFile bytes ∧
          (bytes.length : Int) = chunkSize) →
      fileSize - offset ≤ n * chunkSize → (n : Int) * chunkSize < fileSize - offset + chunkSize →
        (downloadLoop env file filePath fileSize offset w).1.fileRequests.length =
            w.fileRequests.length + n ∧
          (downloadLoop env file filePath fileSize offset w).2 = none := by
  intro n
  induction n with
  | zero =>
    intro offset w _ _ hle _
    rw [downloadLoop_done _ _ _ _ _ _ (by simp only [chunkSize] at hle; omega)]
    exact ⟨rfl, rfl⟩
  | succ n ih =>
    intro offset w hwrite hfetch hle hlt
    simp only [chunkSize, Nat.cast_add, Nat.cast_one] at hle hlt
    have h : offset < fileSize := by omega
    obtain ⟨bytes, hr, hlen⟩ := hfetch 0 (chunkRequest file offset) (by omega)
    have hw := hwrite 0 (by omega)
    simp only [Nat.add_zero] at hr hw
    rw [downloadLoop_next _ _ _ _ _ _ _ h hr hw (by omega)]
    have hnext := ih (offset + bytes.length)
      ((w.sendFile (chunkRequest file offset)).append filePath bytes)
      (fun k hk => by
        have := hwrite (k + 1) (by omega)
        simpa [World.sendFile, World.append, Nat.add_assoc, Nat.add_comm 1 k] using this)
      (fun k req hk => by
        have := hfetch (k + 1) req (by omega)
        simpa [World.sendFile, World.append, Nat.add_assoc, Nat.add_comm 1 k] using this)
      (by simp only [chunkSize] at hlen ⊢; omega) (by simp only [chunkSize] at hlen ⊢; omega)
    simp only [World.sendFile, World.append, List.length_append, List.length_singleton]
      at hnext ⊢
    exact ⟨by omega, hnext.2⟩

/-- C3, as the code has it: for a declared size `S ≥ 0` and a target file that
does not exist, `downloadFile` (a total function: its loop ends for every
sequence of replies) sends at most `ceil(S/524288)` chunk requests whatever
the collaborators do; it sends exactly that many and returns nil when the
file is created, no write fails and every reply is a chunk of exactly 524288
bytes; it sends none for `S = 0`; and a chunk shorter than 524288 bytes that
is written ends the loop at once.  `ceilDiv S 524288` is the least number of
strides that cover `S`. -/
theorem downloadFile_fetch_count (env : Env) (w : World) (file : InputDocumentFileLocation)
    (fileName : String) (fileSize : Int) (hsize : 0 ≤ fileSize)
    (habsent : w.files (env.join env.downloadPath fileName) = none) :
    (0 ≤ ceilDiv fileSize chunkSize ∧ fileSize ≤ ceilDiv fileSize chunkSize * chunkSize ∧
        ceilDiv fileSize chunkSize * chunkSize < fileSize + chunkSize) ∧
      ((downloadFile env w file fileName fileSize).1.fileRequests.length : Int) ≤
        w.fileRequests.length + ceilDiv fileSize chunkSize ∧
      (env.createErr (env.join env.downloadPath fileName) = none →
        (∀ k : Nat, (k : Int) < ceilDiv fileSize chunkSize →
          env.writeErr (w.writes + k) = none) →
        (∀ (k : Nat) (req : UploadGetFileRequest), (k : Int) < ceilDiv fileSize chunkSize →
          ∃ bytes, env.getFile (w.fileRequests.length + k) req = .uploadFile bytes ∧
            (bytes.length : Int) = chunkSize) →
        ((downloadFile env w file fileName fileSize).1.fileRequests.length : Int) =
            w.fileRequests.length + ceilDiv fileSize chunkSize ∧
          (downloadFile env w file fileName fileSize).2 = none) ∧
      (fileSize = 0 → (downloadFile env w file fileName fileSize).1.fileRequests =
        w.fileRequests) ∧
      (∀ (offset : Int) (w1 : World) (bytes : List UInt8), offset < fileSize →
        env.getFile w1.fileRequests.length (chunkRequest file offset) = .uploadFile bytes →
        env.writeErr w1.writes = none → (bytes.length : Int) < chunkSize →
          downloadLoop env file (env.join env.downloadPath fileName) fileSize offset w1 =
            ((w1.sendFile (chunkRequest file offset)).append
              (env.join env.downloadPath fileName) bytes, none)) := by
  have hceil0 : 0 ≤ ceilDiv fileSize chunkSize := by
    simp only [ceilDiv, chunkSize]; omega
  have hceil1 : fileSize ≤ ceilDiv fileSize chunkSize * chunkSize := by
    simp only [ceilDiv, chunkSize]; omega
  have hceil2 : ceilDiv fileSize chunkSize * chunkSize < fileSize + chunkSize := by
    simp only [ceilDiv, chunkSize]; omega
  have hmost : ((downloadFile env w file fileName fileSize).1.fileRequests.length : Int) ≤
      w.fileRequests.length + ceilDiv fileSize chunkSize := by
    cases hcreate : env.createErr (env.join env.downloadPath fileName) with
    | some msg =>
      simp only [downloadFile, habsent, hcreate, Option.isSome_none, Bool.false_eq_true,
        if_false, World.printf]
      omega
    | none =>
      rw [(downloadFile_of_created env w file fileName fileSize habsent hcreate).1]
      exact downloadLoop_fetch_le env file _ fileSize 0 _ _ hceil0 (by omega)
  refine ⟨⟨hceil0, hceil1, hceil2⟩, hmost, ?_, ?_, ?_⟩
  · intro hcreate hwrite hfetch
    obtain ⟨hreq, _, herr⟩ := downloadFile_of_created env w file fileName fileSize habsent hcreate
    rw [hreq, herr]
    obtain ⟨n, hn⟩ := Int.eq_ofNat_of_zero_le hceil0
    rw [hn] at hwrite hfetch hceil1 hceil2 ⊢
    have := downloadLoop_fetch_full env file (env.join env.downloadPath fileName) fileSize n 0
      ((w.printf ("Downloading: " ++ fileName ++ " (" ++ formatFileSize fileSize ++
        ")")).create (env.join env.downloadPath fileName))
      (fun k hk => hwrite k (by exact_mod_cast hk))
      (fun k req hk => hfetch k req (by exact_mod_cast hk)) (by omega) (by omega)
    refine ⟨?_, this.2⟩
    rw [this.1]
    simp [World.printf, World.create]
  · intro hzero
    have := hmost
    cases hcreate : env.createErr (env.join env.downloadPath fileName) with
    | some msg =>
      simp [downloadFile, habsent, hcreate, World.printf]
    | none =>
      rw [(downloadFile_of_created env w file fileName fileSize habsent hcreate).1,
        downloadLoop_done _ _ _ _ _ _ (by omega)]
      rfl
  · intro offset w1 bytes h hr hw hlen
    exact downloadLoop_short _ _ _ _ _ _ _ h hr hw hlen

/-- The theorem above at a declared size of two strides and full chunks: two requests. -/
theorem downloadFile_fetch_count_witness :
    ((downloadFile Env.fullChunks World.start sampleLocation "a.mp3"
          1048576).1.fileRequests.length : Int) =
        World.start.fileRequests.length + ceilDiv 1048576 chunkSize ∧
      (downloadFile Env.fullChunks World.start sampleLocation "a.mp3" 1048576).2 = none :=
  (downloadFile_fetch_count Env.fullChunks World.start sampleLocation "a.mp3" 1048576
    (by decide) rfl).2.2.1 rfl (fun _ _ => rfl)
    (fun _ _ _ => ⟨List.replicate 524288 0, rfl, by rw [List.length_replicate]; rfl⟩)

/-- C3 fails as stated: the target file does not exist, no fetch fails and
the one chunk returned has exactly 524288 bytes, the declared size is 1048576
(two strides), yet the first write fails and `downloadFile` returns its error
after one chunk request, not two. -/
theorem downloadFile_fetch_count_write_failure :
    World.start.files (Env.diskFull.join Env.diskFull.downloadPath "a.mp3") = none ∧
      (∀ (k : Nat) (req : UploadGetFileRequest),
        Env.diskFull.getFile k req = .uploadFile (List.replicate 524288 0)) ∧
      ((List.replicate 524288 (0 : UInt8)).length : Int) = chunkSize ∧
      ceilDiv 1048576 chunkSize = 2 ∧
      (downloadFile Env.diskFull World.start sampleLocation "a.mp3"
        1048576).1.fileRequests.length = 1 ∧
      (downloadFile Env.diskFull World.start sampleLocation "a.mp3" 1048576).2 =
        some "failed to write chunk: no space left on device" := by
  have hloop := downloadLoop_writeFail Env.diskFull sampleLocation
    (Env.diskFull.join Env.diskFull.downloadPath "a.mp3") 1048576 0
    ((World.start.printf ("Downloading: " ++ "a.mp3" ++ " (" ++ formatFileSize 1048576 ++
      ")")).create (Env.diskFull.join Env.diskFull.downloadPath "a.mp3"))
    (List.replicate 524288 0) 0 "no space left on device" (by decide) rfl rfl
  obtain ⟨hreq, _, herr⟩ := downloadFile_of_created Env.diskFull World.start sampleLocation
    "a.mp3" 1048576 rfl rfl
  refine ⟨rfl, fun _ _ => rfl, by rw [List.length_replicate]; rfl, by decide, ?_, ?_⟩
  · rw [hreq, hloop]; rfl
  · rw [herr, hloop]; rfl


/-! ## C4: the bytes written -/

/-- The offset at a position is the start plus the lengths of the chunks before it. -/
theorem offsetsFrom_getElem (chunks : List (List UInt8)) :
    ∀ (offset : Int) (i : Nat) (o : Int), (offsetsFrom offset chunks)[i]? = some o →
      o = offset + (((chunks.take i).map List.length).sum : Nat) := by
  induction chunks with
  | nil => intro offset i o h; simp [offsetsFrom] at h
  | cons chunk rest ih =>
    intro offset i o h
    cases i with
    | zero =>
      simp only [offsetsFrom, List.getElem?_cons_zero, Option.some.injEq] at h
      simp [h]
    | succ i =>
      simp only [offsetsFrom, List.getElem?_cons_succ] at h
      rw [ih _ _ _ h]
      simp only [List.take_succ_cons, List.map_cons, List.sum_cons, Nat.cast_add]
      omega

/-- What the loop does when no request and no write fails and no chunk exceeds the stride. -/
theorem downloadLoop_written (env : Env) (file : InputDocumentFileLocation) (filePath : String)
    (fileSize : Int) (hwrite : ∀ k, env.writeErr k = none)
    (hfetch : ∀ k req, ∃ bytes, env.getFile k req = .uploadFile bytes ∧
      (bytes.length : Int) ≤ chunkSize) (offset : Int) (w : World) :
    ∀ content : List UInt8, w.files filePath = some content →
      ∃ reqs : List UploadGetFileRequest,
        (downloadLoop env file filePath fileSize offset w).1.fileRequests =
          w.fileRequests ++ reqs ∧
        (downloadLoop env file filePath fileSize offset w).2 = none ∧
        (downloadLoop env file filePath fileSize offset w).1.files filePath =
          some (content ++ (returnedChunks env w.fileRequests.length reqs).flatten) ∧
        reqs.map (fun req => req.Offset) =
          offsetsFrom offset (returnedChunks env w.fileRequests.length reqs) ∧
        (offset < fileSize →
          offset + (((returnedChunks env w.fileRequests.length reqs).map List.length).sum : Nat) <
            fileSize + chunkSize) ∧
        (¬ offset < fileSize → reqs = []) := by
  induction offset, w using downloadLoop.induct env file filePath fileSize with
  | case1 offset w h msg hr =>
    obtain ⟨bytes, hb, _⟩ := hfetch w.fileRequests.length (chunkRequest file offset)
    rw [hb] at hr; cases hr
  | case2 offset w h hr =>
    obtain ⟨bytes, hb, _⟩ := hfetch w.fileRequests.length (chunkRequest file offset)
    rw [hb] at hr; cases hr
  | case3 offset w h bytes hr n msg hw => rw [hwrite] at hw; cases hw
  | case4 offset w h bytes hr hw hlen =>
    intro content hcontent
    rw [downloadLoop_short _ _ _ _ _ _ _ h hr hw hlen]
    refine ⟨[chunkRequest file offset], rfl, rfl, ?_, ?_, ?_, fun hn => absurd h hn⟩
    · simp [World.sendFile, World.append, hcontent, returnedChunks, hr, replyBytes]
    · simp [returnedChunks, offsetsFrom, chunkRequest]
    · intro _
      simp only [returnedChunks, hr, replyBytes, List.map_cons, List.map_nil, List.sum_cons,
        List.sum_nil, Nat.add_zero]
      omega
  | case5 offset w h bytes hr hw hlen ih =>
    intro content hcontent
    rw [downloadLoop_next _ _ _ _ _ _ _ h hr hw hlen]
    obtain ⟨bytes1, hb, hmax⟩ := hfetch w.fileRequests.length (chunkRequest file offset)
    rw [hr] at hb
    cases hb
    obtain ⟨reqs, hreqs, herr, hfiles, hoffsets, hbelow, hdone⟩ :=
      ih (content ++ bytes) (by simp [World.sendFile, World.append, hcontent])
    have hsent : ((w.sendFile (chunkRequest file offset)).append filePath bytes).fileRequests.length =
        w.fileRequests.length + 1 := by
      simp [World.sendFile, World.append]
    rw [hsent] at hfiles hoffsets hbelow
    refine ⟨chunkRequest file offset :: reqs, ?_, herr, ?_, ?_, ?_, fun hn => absurd h hn⟩
    · rw [hreqs]; simp [World.sendFile, World.append]
    · rw [hfiles]; simp [returnedChunks, hr, replyBytes]
    · simp only [List.map_cons, returnedChunks, hr, replyBytes, offsetsFrom, hoffsets]
      rfl
    · intro _
      simp only [returnedChunks, hr, replyBytes, List.map_cons, List.sum_cons, Nat.cast_add]
      by_cases hnext : offset + (bytes.length : Int) < fileSize
      · have := hbelow hnext
        omega
      · rw [hdone hnext]
        simp only [returnedChunks, List.map_nil, List.sum_nil, Nat.cast_zero]
        omega
  | case6 offset w h =>
    intro content hcontent
    rw [downloadLoop_done _ _ _ _ _ _ h]
    exact ⟨[], by simp, rfl, by simp [returnedChunks, hcontent],
      by simp [returnedChunks, offsetsFrom], fun hn => absurd hn h, fun _ => rfl⟩

/-- C4: for every declared size `S` (a non-negative integer), a target file
that does not exist, replies that are all chunks of at most 524288 bytes, and
no failure of a fetch or of a write (the creation of the file included),
`downloadFile` returns nil; the first request has offset 0; the offset of
each request is the total length of the chunks returned before it; the file
holds the returned chunks one after the other; its length is the sum of
their lengths and is less than `S + 524288`. -/
theorem downloadFile_bytes_written (env : Env) (w : World) (file : InputDocumentFileLocation)
    (fileName : String) (fileSize : Int) (hsize : 0 ≤ fileSize)
    (habsent : w.files (env.join env.downloadPath fileName) = none)
    (hcreate : env.createErr (env.join env.downloadPath fileName) = none)
    (hwrite : ∀ k, env.writeErr k = none)
    (hfetch : ∀ k req, ∃ bytes, env.getFile k req = .uploadFile bytes ∧
      (bytes.length : Int) ≤ chunkSize) :
    ∃ reqs : List UploadGetFileRequest,
      (downloadFile env w file fileName fileSize).1.fileRequests = w.fileRequests ++ reqs ∧
      (downloadFile env w file fileName fileSize).2 = none ∧
      (∀ req, reqs.head? = some req → req.Offset = 0) ∧
      (∀ (i : Nat) (req : UploadGetFileRequest), reqs[i]? = some req →
        req.Offset =
          ((((returnedChunks env w.fileRequests.length reqs).take i).map List.length).sum : Nat)) ∧
      (downloadFile env w file fileName fileSize).1.files (env.join env.downloadPath fileName) =
        some (returnedChunks env w.fileRequests.length reqs).flatten ∧
      (returnedChunks env w.fileRequests.length reqs).flatten.length =
        ((returnedChunks env w.fileRequests.length reqs).map List.length).sum ∧
      ((returnedChunks env w.fileRequests.length reqs).flatten.length : Int) <
        fileSize + chunkSize := by
  obtain ⟨hreq, hfiles, herr⟩ :=
    downloadFile_of_created env w file fileName fileSize habsent hcreate
  obtain ⟨reqs, hreqs, hnil, hcontent, hoffsets, hbelow, hdone⟩ :=
    downloadLoop_written env file (env.join env.downloadPath fileName) fileSize hwrite hfetch 0
      ((w.printf ("Downloading: " ++ fileName ++ " (" ++ formatFileSize fileSize ++
        ")")).create (env.join env.downloadPath fileName)) []
      (by simp [World.printf, World.create])
  have hstart : ((w.printf ("Downloading: " ++ fileName ++ " (" ++ formatFileSize fileSize ++
      ")")).create (env.join env.downloadPath fileName)).fileRequests = w.fileRequests := rfl
  rw [hstart] at hreqs hcontent hoffsets hbelow
  have hindex : ∀ (i : Nat) (req : UploadGetFileRequest), reqs[i]? = some req →
      req.Offset =
        ((((returnedChunks env w.fileRequests.length reqs).take i).map List.length).sum : Nat) := by
    intro i req hi
    have hmap : (reqs.map (fun req => req.Offset))[i]? = some req.Offset := by
      rw [List.getElem?_map, hi]; rfl
    rw [hoffsets] at hmap
    have := offsetsFrom_getElem _ _ _ _ hmap
    omega
  refine ⟨reqs, by rw [hreq, hreqs], by rw [herr, hnil], ?_, hindex, ?_,
    List.length_flatten _, ?_⟩
  · intro req hhead
    have := hindex 0 req (by rw [← List.head?_eq_getElem?]; exact hhead)
    simpa using this
  · rw [hfiles, hcontent]; simp
  · rw [List.length_flatten]
    by_cases hpos : (0 : Int) < fileSize
    · have := hbelow hpos
      omega
    · rw [hdone hpos]
      simp only [returnedChunks, List.map_nil, List.sum_nil, Nat.cast_zero, chunkSize]
      omega

/-- The run of `downloadFile` for a declared size of one stride and three
bytes, answered by a full chunk and then by three bytes: two requests, the
second at offset 524288, and a file holding the full chunk followed by the
three bytes. -/
theorem twoChunks_run :
    (downloadFile Env.twoChunks World.start sampleLocation "a.mp3" 524291).1.fileRequests =
        [chunkRequest sampleLocation 0, chunkRequest sampleLocation 524288] ∧
      (downloadFile Env.twoChunks World.start sampleLocation "a.mp3" 524291).1.files
          (Env.twoChunks.join Env.twoChunks.downloadPath "a.mp3") =
        some (List.replicate 524288 0 ++ [1, 2, 3]) := by
  obtain ⟨hreq, hfiles, _⟩ := downloadFile_of_created Env.twoChunks World.start sampleLocation
    "a.mp3" 524291 rfl rfl
  have hfull : ((List.replicate 524288 (0 : UInt8)).length : Int) = 524288 := by
    rw [List.length_replicate]; rfl
  have hfirst := downloadLoop_next Env.twoChunks sampleLocation
    (Env.twoChunks.join Env.twoChunks.downloadPath "a.mp3") 524291 0
    ((World.start.printf ("Downloading: " ++ "a.mp3" ++ " (" ++ formatFileSize 524291 ++
      ")")).create (Env.twoChunks.join Env.twoChunks.downloadPath "a.mp3"))
    (List.replicate 524288 0) (by decide) rfl rfl (by rw [hfull]; decide)
  rw [hfull] at hfirst
  have hsecond := downloadLoop_short Env.twoChunks sampleLocation
    (Env.twoChunks.join Env.twoChunks.downloadPath "a.mp3") 524291 (0 + 524288)
    ((((World.start.printf ("Downloading: " ++ "a.mp3" ++ " (" ++ formatFileSize 524291 ++
      ")")).create (Env.twoChunks.join Env.twoChunks.downloadPath "a.mp3")).sendFile
        (chunkRequest sampleLocation 0)).append
          (Env.twoChunks.join Env.twoChunks.downloadPath "a.mp3") (List.replicate 524288 0))
    [1, 2, 3] (by decide) rfl rfl (by decide)
  rw [hreq, hfiles, hfirst, hsecond]
  refine ⟨rfl, ?_⟩
  simp only [World.append, World.sendFile, World.create, World.printf, if_true,
    Option.getD_some, List.nil_append]

/-- The theorem above at a declared size of one stride and three bytes,
answered by a full chunk and then by three bytes, so that the second request
and the concatenation of two chunks are exercised. -/
theorem downloadFile_bytes_written_witness :
    (downloadFile Env.twoChunks World.start sampleLocation "a.mp3" 524291).1.fileRequests =
        [chunkRequest sampleLocation 0, chunkRequest sampleLocation 524288] ∧
      (downloadFile Env.twoChunks World.start sampleLocation "a.mp3" 524291).1.files
          (Env.twoChunks.join Env.twoChunks.downloadPath "a.mp3") =
        some (List.replicate 524288 0 ++ [1, 2, 3]) ∧
      ∃ reqs : List UploadGetFileRequest,
        (downloadFile Env.twoChunks World.start sampleLocation "a.mp3" 524291).1.fileRequests =
          World.start.fileRequests ++ reqs ∧
        (downloadFile Env.twoChunks World.start sampleLocation "a.mp3" 524291).2 = none ∧
        (∀ req, reqs.head? = some req → req.Offset = 0) ∧
        (∀ (i : Nat) (req : UploadGetFileRequest), reqs[i]? = some req →
          req.Offset =
            ((((returnedChunks Env.twoChunks World.start.fileRequests.length reqs).take i).map
              List.length).sum : Nat)) ∧
        (downloadFile Env.twoChunks World.start sampleLocation "a.mp3" 524291).1.files
            (Env.twoChunks.join Env.twoChunks.downloadPath "a.mp3") =
          some (returnedChunks Env.twoChunks World.start.fileRequests.length reqs).flatten ∧
        (returnedChunks Env.twoChunks World.start.fileRequests.length reqs).flatten.length =
          ((returnedChunks Env.twoChunks World.start.fileRequests.length reqs).map
            List.length).sum ∧
        ((returnedChunks Env.twoChunks World.start.fileRequests.length reqs).flatten.length :
            Int) < 524291 + chunkSize :=
  ⟨twoChunks_run.1, twoChunks_run.2,
    downloadFile_bytes_written Env.twoChunks World.start sampleLocation "a.mp3" 524291
      (by decide) rfl rfl (fun _ => rfl)
      (fun k _ =>
        if h : k = 0 then
          ⟨List.replicate 524288 0, if_pos h, by rw [List.length_replicate]; decide⟩
        else ⟨[1, 2, 3], if_neg h, by decide⟩)⟩

/-! ## C10: `formatFileSize` -/

/-- The rounded quotient is within half a unit of the exact one. -/
theorem roundHalfEven_near (a b : Nat) (hb : 0 < b) :
    2 * a ≤ 2 * (b * roundHalfEven a b) + b ∧ 2 * (b * roundHalfEven a b) ≤ 2 * a + b := by
  have hdiv := Nat.div_add_mod a b
  have hmod := Nat.mod_lt a hb
  unfold roundHalfEven
  simp only
  split
  · next h =>
    rw [Nat.mul_add, Nat.mul_one]
    rcases h with h | h <;> omega
  · next h =>
    have : ¬ b < 2 * (a % b) := fun h1 => h (Or.inl h1)
    omega

/-- Integers below `2^53` are floats. -/
theorem float64OfNat_exact (n : Nat) (h : n < 9007199254740992) : float64OfNat n = n := by
  simp [float64OfNat, h]

/-- Below `2^63` the conversion to float moves an integer by at most 512. -/
theorem float64OfNat_near (n : Nat) (h : n < 9223372036854775808) :
    n ≤ float64OfNat n + 512 ∧ float64OfNat n ≤ n + 512 := by
  by_cases hsmall : n < 9007199254740992
  · rw [float64OfNat_exact n hsmall]; omega
  · have hn0 : n ≠ 0 := by omega
    have h53 : 53 ≤ Nat.log2 n := (Nat.le_log2 hn0).2 (by norm_num; omega)
    have h63 : Nat.log2 n < 63 := (Nat.log2_lt hn0).2 (by norm_num; omega)
    obtain ⟨e, he⟩ : ∃ e, e = Nat.log2 n - 52 := ⟨_, rfl⟩
    have he1 : 1 ≤ e := by omega
    have he2 : e ≤ 10 := by omega
    unfold float64OfNat
    rw [if_neg hsmall]
    simp only [← he]
    interval_cases e <;> norm_num <;> split <;> omega

/-- The text of tenths ends in a point and exactly one digit. -/
theorem tenthsText_digit (t : Nat) :
    tenthsText t = Nat.repr (t / 10) ++ "." ++ String.singleton (Nat.digitChar (t % 10)) := by
  have hlt : t % 10 < 10 := Nat.mod_lt _ (by decide)
  have hdigit : ∀ d : Nat, d < 10 → toString d = String.singleton (Nat.digitChar d) := by
    intro d hd
    interval_cases d <;> rfl
  unfold tenthsText
  rw [hdigit _ hlt]
  rfl

/-- C10: `formatFileSize` uses binary units.  Below 1024 the result is the
decimal digits of the size followed by " B".  From 1024 and below 1048576 it
is a number with one decimal place (integer part, point, one digit) followed
by " KB", the tenth nearest to `n/1024`.  From 1048576 (up to the largest
`int64`) it is such a number followed by " MB", less than one tenth away from
`n/1048576`, and the nearest tenth for every size below `2^53`, where
`float64(n)` is exact.  The four sample values are as the specification
gives them. -/
theorem formatFileSize_units :
    (∀ n : Int, 0 ≤ n → n < 1024 → formatFileSize n = Nat.repr n.toNat ++ " B") ∧
    (∀ n : Int, 1024 ≤ n → n < 1048576 →
      ∃ t : Nat, formatFileSize n = tenthsText t ++ " KB" ∧
        1024 * (t : Int) - 512 ≤ 10 * n ∧ 10 * n ≤ 1024 * (t : Int) + 512) ∧
    (∀ n : Int, 1048576 ≤ n → n < 9223372036854775808 →
      ∃ t : Nat, formatFileSize n = tenthsText t ++ " MB" ∧
        1048576 * (t : Int) - 1048576 < 10 * n ∧ 10 * n < 1048576 * (t : Int) + 1048576 ∧
        (n < 9007199254740992 →
          1048576 * (t : Int) - 524288 ≤ 10 * n ∧ 10 * n ≤ 1048576 * (t : Int) + 524288)) ∧
    (∀ t : Nat,
      tenthsText t = Nat.repr (t / 10) ++ "." ++ String.singleton (Nat.digitChar (t % 10))) ∧
    formatFileSize 0 = "0 B" ∧ formatFileSize 1023 = "1023 B" ∧
    formatFileSize 1536 = "1.5 KB" ∧ formatFileSize 1572864 = "1.5 MB" := by
  refine ⟨?_, ?_, ?_, tenthsText_digit, by decide, by decide, by decide, by decide⟩
  · intro n h0 h1
    obtain ⟨m, rfl⟩ := Int.eq_ofNat_of_zero_le h0
    simp only [formatFileSize, if_pos h1, Int.toNat_ofNat]
    rfl
  · intro n h0 h1
    obtain ⟨m, rfl⟩ := Int.eq_ofNat_of_zero_le (by omega : (0 : Int) ≤ n)
    have hm : m < 9007199254740992 := by omega
    refine ⟨roundHalfEven (10 * m) 1024, ?_, ?_⟩
    · simp only [formatFileSize, if_neg (by omega : ¬ (m : Int) < 1024),
        if_pos (by omega : (m : Int) < 1024 * 1024), Int.toNat_ofNat, float64OfNat_exact m hm,
        sprintfFloat1]
    · have := roundHalfEven_near (10 * m) 1024 (by decide)
      omega
  · intro n h0 h1
    obtain ⟨m, rfl⟩ := Int.eq_ofNat_of_zero_le (by omega : (0 : Int) ≤ n)
    refine ⟨roundHalfEven (10 * float64OfNat m) (1024 * 1024), ?_, ?_⟩
    · simp only [formatFileSize, if_neg (by omega : ¬ (m : Int) < 1024),
        if_neg (by omega : ¬ (m : Int) < 1024 * 1024), Int.toNat_ofNat, sprintfFloat1]
    · have hround := roundHalfEven_near (10 * float64OfNat m) (1024 * 1024) (by decide)
      have hfloat := float64OfNat_near m (by omega)
      refine ⟨by omega, by omega, ?_⟩
      intro hsmall
      rw [float64OfNat_exact m (by omega)] at hround ⊢
      omega

/-- The theorem above at the sizes 5, 1280 and 5000000. -/
theorem formatFileSize_units_witness :
    formatFileSize 5 = Nat.repr (5 : Int).toNat ++ " B" ∧
    (∃ t : Nat, formatFileSize 1280 = tenthsText t ++ " KB" ∧
      1024 * (t : Int) - 512 ≤ 10 * 1280 ∧ 10 * 1280 ≤ 1024 * (t : Int) + 512) ∧
    (∃ t : Nat, formatFileSize 5000000 = tenthsText t ++ " MB" ∧
      1048576 * (t : Int) - 1048576 < 10 * 5000000 ∧
      10 * 5000000 < 1048576 * (t : Int) + 1048576 ∧
      ((5000000 : Int) < 9007199254740992 →
        1048576 * (t : Int) - 524288 ≤ 10 * 5000000 ∧
          10 * 5000000 ≤ 1048576 * (t : Int) + 524288)) :=
  ⟨formatFileSize_units.1 5 (by decide) (by decide),
    formatFileSize_units.2.1 1280 (by decide) (by decide),
    formatFileSize_units.2.2.1 5000000 (by decide) (by decide)⟩

end SocialContentDL
